import Mathlib

/-!
Verification development for the XL object layer (`xl-objects.go`) of a
multi-disk object store.  The Go code is shallowly embedded: the storage
backend is a finite map from (volume, path) to file data together with
read-only failure-injection sets; every object-layer operation is a pure
function returning its result, the updated file map where it writes, and
the list of backend calls it issued.  Machine integers (`int64`) are
modelled as `Int`; byte streams as `List Nat`.
-/

deriving instance DecidableEq for Except

/-- Storage-level errors, mirroring the error values used by `xl-objects.go`
(`errFileNotFound`, `errUnexpected`, ...).  `errDiskFailure` stands for an
injected generic backend fault, `errEOF` for a short read from the data
stream, `errDecodeFailed` for a corrupt multipart descriptor. -/
inductive StorageErr where
  | errFileNotFound
  | errFileAccessDenied
  | errDiskFailure
  | errEOF
  | errDecodeFailed
  | errUnexpected
deriving DecidableEq, Repr

/-- Object-layer errors surfaced by the exported operations
(`BucketNameInvalid`, `BucketNotFound`, `ObjectNameInvalid`,
`ObjectNotFound`, `BadDigest`).  `Backend e` is a storage error passed
through untranslated. -/
inductive ObjErr where
  | BucketNameInvalid (bucket : String)
  | BucketNotFound (bucket : String)
  | ObjectNameInvalid (bucket object : String)
  | ObjectNotFound (bucket object : String)
  | BadDigest (expectedMD5 calculatedMD5 : String)
  | Backend (e : StorageErr)
deriving DecidableEq, Repr

/-- One call into the storage backend (the `StorageAPI` collaborator). -/
inductive SCall where
  | statVol (volume : String)
  | statFile (volume p : String)
  | readFile (volume p : String) (offset : Int)
  | createFile (volume p : String)
  | deleteFile (volume p : String)
  | renameFile (srcVol srcPath dstVol dstPath : String)
deriving DecidableEq, Repr

/-- One part record of a multipart object descriptor (Go `MultipartPartInfo`). -/
structure MultipartPartInfo where
  partNumber : Nat
  etag : String
  size : Int
deriving DecidableEq, Repr

/-- The multipart object descriptor (Go `MultipartObjectInfo`): the ordered
part list plus aggregate size, modification time and content hash. -/
structure MultipartObjectInfo where
  parts : List MultipartPartInfo
  size : Int
  modTime : Nat
  md5Sum : String
deriving DecidableEq, Repr

/-- Contents of a backend file: either raw bytes, or a multipart descriptor.
JSON encoding/decoding of descriptors is embedded as the identity, so a
descriptor file holds the structured record directly and a raw-bytes file
fails to decode. -/
inductive FContent where
  | bytes (bs : List Nat)
  | mpInfo (info : MultipartObjectInfo)
deriving DecidableEq, Repr

/-- A backend file with its stat attributes. -/
structure FileData where
  content : FContent
  modTime : Nat
  md5 : String
  isDir : Bool
deriving DecidableEq, Repr

/-- Stat result (Go `FileInfo` as used by `xl-objects.go`). -/
structure FileInfo where
  size : Int
  modTime : Nat
  md5Sum : String
  isDir : Bool
deriving DecidableEq, Repr

/-- The backend file system: an association list from (volume, path) to file
data.  The head entry for a key shadows later ones. -/
abbrev FilesMap := List ((String × String) × FileData)

/-- Look up the file stored at (volume, path). -/
def lookupF : FilesMap → String → String → Option FileData
  | [], _, _ => none
  | (k, v) :: rest, vol, p => if k = (vol, p) then some v else lookupF rest vol p

/-- Remove every entry at (volume, path). -/
def removeF : FilesMap → String → String → FilesMap
  | [], _, _ => []
  | (k, v) :: rest, vol, p =>
    if k = (vol, p) then removeF rest vol p else (k, v) :: removeF rest vol p

/-- Store file data at (volume, path), replacing any previous entry. -/
def insertF (fs : FilesMap) (vol p : String) (fd : FileData) : FilesMap :=
  ((vol, p), fd) :: removeF fs vol p

theorem lookupF_removeF_self (fs : FilesMap) (vol p : String) :
    lookupF (removeF fs vol p) vol p = none := by
  induction fs with
  | nil => rfl
  | cons e rest ih =>
    obtain ⟨k, v⟩ := e
    by_cases h : k = (vol, p) <;> simp [removeF, lookupF, h, ih]

theorem lookupF_removeF_other (fs : FilesMap) (vol p vol' p' : String)
    (h : (vol', p') ≠ (vol, p)) :
    lookupF (removeF fs vol p) vol' p' = lookupF fs vol' p' := by
  induction fs with
  | nil => rfl
  | cons e rest ih =>
    obtain ⟨k, v⟩ := e
    by_cases hk : k = (vol, p)
    · have hne : k ≠ (vol', p') := by
        intro hc
        exact h (hc ▸ hk)
      simp only [removeF, lookupF, if_pos hk, if_neg hne, ih]
    · by_cases hk2 : k = (vol', p')
      · simp only [removeF, lookupF, if_neg hk, if_pos hk2]
      · simp only [removeF, lookupF, if_neg hk, if_neg hk2, ih]

theorem lookupF_insertF_self (fs : FilesMap) (vol p : String) (fd : FileData) :
    lookupF (insertF fs vol p fd) vol p = some fd := by
  simp [insertF, lookupF]

theorem lookupF_insertF_other (fs : FilesMap) (vol p vol' p' : String) (fd : FileData)
    (h : (vol', p') ≠ (vol, p)) :
    lookupF (insertF fs vol p fd) vol' p' = lookupF fs vol' p' := by
  have h' : ((vol, p) : String × String) ≠ (vol', p') := fun hc => h hc.symm
  simp only [insertF, lookupF, if_neg h']
  exact lookupF_removeF_other fs vol p vol' p' h

theorem removeF_removeF_self (fs : FilesMap) (vol p : String) :
    removeF (removeF fs vol p) vol p = removeF fs vol p := by
  induction fs with
  | nil => rfl
  | cons e rest ih =>
    obtain ⟨k, v⟩ := e
    by_cases hk : k = (vol, p)
    · simp only [removeF, if_pos hk, ih]
    · simp only [removeF, if_neg hk, ih]

theorem removeF_insertF_self (fs : FilesMap) (vol p : String) (fd : FileData) :
    removeF (insertF fs vol p fd) vol p = removeF fs vol p := by
  simp only [insertF, removeF, if_pos rfl]
  exact removeF_removeF_self fs vol p

/-! ## Format bootstrap and validation (`isValidFormat`, lines 48-70) -/

/-- The persisted disk-set descriptor `format.json` (Go `xlFormat`). -/
structure xlFormat where
  version : String
  disks : List String
deriving DecidableEq, Repr

/-- The positional disk comparison loop of `isValidFormat` (lines 63-68):
`for index, disk := range xl.Disks { if exportPaths[index] != disk { return false } }`.
The mismatched-length case is unreachable because the caller has already
compared the lengths. -/
def diskOrderMatches : List String → List String → Bool
  | [], _ => true
  | _ :: _, [] => false
  | disk :: disks, e :: es => if e ≠ disk then false else diskOrderMatches disks es

/-- Embeds `isValidFormat` (lines 48-70).  The result of `loadFormatXL`
(defined outside this file; modelled from the spec as loading the persisted
disk-set descriptor, which can fail) is taken as the `load` argument. -/
def isValidFormat (load : Except StorageErr xlFormat) (exportPaths : List String) : Bool :=
  match load with
  | .error _ => false
  | .ok xl =>
    if xl.version ≠ "1" then false
    else if exportPaths.length ≠ xl.disks.length then false
    else diskOrderMatches xl.disks exportPaths

theorem diskOrderMatches_iff (disks : List String) :
    ∀ es : List String, disks.length = es.length →
      (diskOrderMatches disks es = true ↔ es = disks) := by
  induction disks with
  | nil =>
    intro es hlen
    cases es with
    | nil => simp [diskOrderMatches]
    | cons e es' => simp at hlen
  | cons d ds ih =>
    intro es hlen
    cases es with
    | nil => simp at hlen
    | cons e es' =>
      simp only [List.length_cons, Nat.succ.injEq] at hlen
      by_cases h : e = d
      · simp [diskOrderMatches, h, ih es' hlen]
      · simp [diskOrderMatches, h]

theorem getD_pointwise_eq (l₁ : List String) :
    ∀ l₂ : List String, l₁.length = l₂.length →
      ((∀ i, i < l₁.length → l₁.getD i "" = l₂.getD i "") ↔ l₁ = l₂) := by
  induction l₁ with
  | nil =>
    intro l₂ hlen
    cases l₂ with
    | nil => simp
    | cons b bs => simp at hlen
  | cons a as ih =>
    intro l₂ hlen
    cases l₂ with
    | nil => simp at hlen
    | cons b bs =>
      simp only [List.length_cons, Nat.succ.injEq] at hlen
      constructor
      · intro h
        have h0 := h 0 (Nat.succ_pos _)
        simp only [List.getD] at h0
        have hrest : ∀ i, i < as.length → as.getD i "" = bs.getD i "" := by
          intro i hi
          have := h (i + 1) (Nat.succ_lt_succ hi)
          simpa using this
        simp at h0
        rw [h0, (ih bs hlen).mp hrest]
      · intro h i hi
        rw [h]

/-- C5: `isValidFormat` succeeds iff the loaded descriptor has version "1",
its disk count equals the supplied disk count, and each disk matches
positionally; in particular a permutation of the disks that is not the
identical order fails, and every failure is the `false` result of a total
function (not a crash). -/
theorem c5_isValidFormat_iff (load : Except StorageErr xlFormat) (exportPaths : List String) :
    (isValidFormat load exportPaths = true ↔
      ∃ xl, load = .ok xl ∧ xl.version = "1" ∧ xl.disks.length = exportPaths.length ∧
        ∀ i, i < xl.disks.length → xl.disks.getD i "" = exportPaths.getD i "") ∧
    (∀ xl, load = .ok xl → exportPaths.Perm xl.disks → exportPaths ≠ xl.disks →
      isValidFormat load exportPaths = false) := by
  constructor
  · constructor
    · intro h
      cases load with
      | error e => simp [isValidFormat] at h
      | ok xl =>
        simp only [isValidFormat] at h
        by_cases hv : xl.version = "1"
        · by_cases hlen : exportPaths.length = xl.disks.length
          · refine ⟨xl, rfl, hv, hlen.symm, ?_⟩
            have hmatch : diskOrderMatches xl.disks exportPaths = true := by
              simpa [hv, hlen] using h
            have heq := (diskOrderMatches_iff xl.disks exportPaths hlen.symm).mp hmatch
            exact (getD_pointwise_eq xl.disks exportPaths hlen.symm).mpr heq.symm
          · simp [hv, hlen] at h
        · simp [hv] at h
    · rintro ⟨xl, hl, hv, hlen, hpt⟩
      subst hl
      have heq : xl.disks = exportPaths := (getD_pointwise_eq xl.disks exportPaths hlen).mp hpt
      have hm : diskOrderMatches xl.disks exportPaths = true :=
        (diskOrderMatches_iff xl.disks exportPaths hlen).mpr heq.symm
      simp [isValidFormat, hv, hlen, hm]
  · intro xl hl hperm hne
    subst hl
    simp only [isValidFormat]
    by_cases hv : xl.version = "1"
    · by_cases hm : diskOrderMatches xl.disks exportPaths = true
      · have hlen : exportPaths.length = xl.disks.length := hperm.length_eq
        exact absurd ((diskOrderMatches_iff xl.disks exportPaths hlen.symm).mp hm) hne
      · simp only [Bool.not_eq_true] at hm
        simp [hv, hm]
    · simp [hv]

/-- Witness for C5: a version-"1" descriptor with disks in a different order
than supplied fails validation. -/
theorem c5_witness :
    isValidFormat (.ok ⟨"1", ["/d1", "/d2"]⟩) ["/d2", "/d1"] = false :=
  (c5_isValidFormat_iff (.ok ⟨"1", ["/d1", "/d2"]⟩) ["/d2", "/d1"]).2
    ⟨"1", ["/d1", "/d2"]⟩ rfl (by decide) (by decide)

/-! ## MD5 (the `crypto/md5` + `encoding/hex` pipeline used by `PutObject`) -/

/-- Rotation of a 32-bit word held as a `Nat` below `2^32`. -/
def rotl32 (x n : Nat) : Nat :=
  ((x <<< n) % 4294967296) ||| (x >>> (32 - n))

/-- The 64 per-round sine-derived constants of MD5. -/
def md5K : List Nat :=
  [0xd76aa478, 0xe8c7b756, 0x242070db, 0xc1bdceee,
   0xf57c0faf, 0x4787c62a, 0xa8304613, 0xfd469501,
   0x698098d8, 0x8b44f7af, 0xffff5bb1, 0x895cd7be,
   0x6b901122, 0xfd987193, 0xa679438e, 0x49b40821,
   0xf61e2562, 0xc040b340, 0x265e5a51, 0xe9b6c7aa,
   0xd62f105d, 0x02441453, 0xd8a1e681, 0xe7d3fbc8,
   0x21e1cde6, 0xc33707d6, 0xf4d50d87, 0x455a14ed,
   0xa9e3e905, 0xfcefa3f8, 0x676f02d9, 0x8d2a4c8a,
   0xfffa3942, 0x8771f681, 0x6d9d6122, 0xfde5380c,
   0xa4beea44, 0x4bdecfa9, 0xf6bb4b60, 0xbebfbc70,
   0x289b7ec6, 0xeaa127fa, 0xd4ef3085, 0x04881d05,
   0xd9d4d039, 0xe6db99e5, 0x1fa27cf8, 0xc4ac5665,
   0xf4292244, 0x432aff97, 0xab9423a7, 0xfc93a039,
   0x655b59c3, 0x8f0ccc92, 0xffeff47d, 0x85845dd1,
   0x6fa87e4f, 0xfe2ce6e0, 0xa3014314, 0x4e0811a1,
   0xf7537e82, 0xbd3af235, 0x2ad7d2bb, 0xeb86d391]

/-- The 64 per-round left-rotation amounts of MD5. -/
def md5S : List Nat :=
  [7, 12, 17, 22, 7, 12, 17, 22, 7, 12, 17, 22, 7, 12, 17, 22,
   5, 9, 14, 20, 5, 9, 14, 20, 5, 9, 14, 20, 5, 9, 14, 20,
   4, 11, 16, 23, 4, 11, 16, 23, 4, 11, 16, 23, 4, 11, 16, 23,
   6, 10, 15, 21, 6, 10, 15, 21, 6, 10, 15, 21, 6, 10, 15, 21]

/-- The MD5 round mixing function for round `i`. -/
def md5F (i b c d : Nat) : Nat :=
  if i < 16 then (b &&& c) ||| ((b ^^^ 4294967295) &&& d)
  else if i < 32 then (d &&& b) ||| ((d ^^^ 4294967295) &&& c)
  else if i < 48 then b ^^^ c ^^^ d
  else c ^^^ (b ||| (d ^^^ 4294967295))

/-- The MD5 message-word index for round `i`. -/
def md5G (i : Nat) : Nat :=
  if i < 16 then i
  else if i < 32 then (5 * i + 1) % 16
  else if i < 48 then (3 * i + 5) % 16
  else (7 * i) % 16

/-- Little-endian decomposition of `n` into `k` bytes. -/
def toLEBytes : Nat → Nat → List Nat
  | 0, _ => []
  | k + 1, n => (n % 256) :: toLEBytes k (n / 256)

/-- The 32-bit little-endian message word at index `g` of a 64-byte chunk. -/
def leWord (chunk : List Nat) (g : Nat) : Nat :=
  chunk.getD (4 * g) 0 + 256 * chunk.getD (4 * g + 1) 0 +
    65536 * chunk.getD (4 * g + 2) 0 + 16777216 * chunk.getD (4 * g + 3) 0

/-- Runs `k` MD5 rounds starting at round index `i` on state (a, b, c, d). -/
def md5RoundsGo (chunk : List Nat) : Nat → Nat → Nat × Nat × Nat × Nat → Nat × Nat × Nat × Nat
  | _, 0, st => st
  | i, k + 1, (a, b, c, d) =>
    let f := (md5F i b c d + a + md5K.getD i 0 + leWord chunk (md5G i)) % 4294967296
    let bNew := (b + rotl32 f (md5S.getD i 0)) % 4294967296
    md5RoundsGo chunk (i + 1) k (d, bNew, b, c)

/-- Processes one 64-byte chunk, updating the running MD5 state. -/
def md5Chunk (st : Nat × Nat × Nat × Nat) (chunk : List Nat) : Nat × Nat × Nat × Nat :=
  match st, md5RoundsGo chunk 0 64 st with
  | (a0, b0, c0, d0), (a, b, c, d) =>
    ((a0 + a) % 4294967296, (b0 + b) % 4294967296, (c0 + c) % 4294967296, (d0 + d) % 4294967296)

/-- Splits a padded message into `k` chunks of 64 bytes. -/
def md5ChunksGo : Nat → List Nat → List (List Nat)
  | 0, _ => []
  | k + 1, l => l.take 64 :: md5ChunksGo k (l.drop 64)

/-- MD5 padding: append 0x80, zero-pad to 56 mod 64, append the 64-bit
little-endian bit length. -/
def md5Pad (msg : List Nat) : List Nat :=
  msg ++ (128 :: List.replicate ((119 - msg.length % 64) % 64) 0) ++
    toLEBytes 8 ((msg.length * 8) % 18446744073709551616)

/-- The 16-byte MD5 digest of a byte sequence. -/
def md5Bytes (msg : List Nat) : List Nat :=
  let padded := md5Pad msg
  match (md5ChunksGo (padded.length / 64) padded).foldl md5Chunk
      (0x67452301, 0xefcdab89, 0x98badcfe, 0x10325476) with
  | (a, b, c, d) => toLEBytes 4 a ++ toLEBytes 4 b ++ toLEBytes 4 c ++ toLEBytes 4 d

/-- Lowercase hexadecimal digit. -/
def hexDigit (n : Nat) : Char :=
  if n < 10 then Char.ofNat (48 + n) else Char.ofNat (87 + n)

/-- Two lowercase hexadecimal digits of one byte. -/
def byteHex (b : Nat) : List Char :=
  [hexDigit (b / 16), hexDigit (b % 16)]

/-- The lowercase-hex MD5 digest of a byte sequence: the
`hex.EncodeToString(md5Writer.Sum(nil))` of line 332. -/
def md5Hex (msg : List Nat) : String :=
  String.mk ((md5Bytes msg).map byteHex).flatten

/-! ## Paths and names -/

/-- Constants of lines 34-38. -/
def multipartSuffix : String := ".minio.multipart"

/-- Name of the part-zero multipart descriptor file (line 36). -/
def multipartMetaFile : String := "00000" ++ multipartSuffix

/-- Modelled from the spec: the reserved internal bucket used only for
staging temporary files (Go constant `minioMetaBucket`, defined outside
this file). -/
def minioMetaBucket : String := ".minio"

/-- Modelled from the spec: the staging namespace under the internal bucket
(Go constant `tmpMetaPrefix`, defined outside this file; renamed here). -/
def tmpMetaPfx : String := "tmp"

/-- Models Go `path.Join`/`pathJoin` on already-clean segments as used by
`xl-objects.go`: plain slash concatenation. -/
def pathJoin (a b : String) : String := a ++ "/" ++ b

/-- Joins path components with slashes. -/
def joinComps : List String → String
  | [] => ""
  | [c] => c
  | c :: cs => c ++ "/" ++ joinComps cs

/-- Splits a path into its slash-separated components (a structurally
recursive model of `String.splitOn "/"`). -/
def splitGo : List Char → List Char → List String
  | [], acc => [String.mk acc.reverse]
  | c :: cs, acc =>
    if c = '/' then String.mk acc.reverse :: splitGo cs []
    else splitGo cs (c :: acc)

/-- Slash-separated components of a path. -/
def splitOnSlash (p : String) : List String :=
  splitGo p.data []

/-- Models Go `path.Dir` on the clean, slash-free-prefix object names used
here: everything before the last slash, or "." when there is none. -/
def pathDir (p : String) : String :=
  match splitOnSlash p with
  | [] => "."
  | [_] => "."
  | comps => joinComps comps.dropLast

/-- Proper ancestor paths of an object name, deepest first: exactly the
paths visited by the recursive `path.Dir` walk of the
parent-directory-is-object check, starting at `path.Dir object` and
stopping before ".".  The first argument is recursion fuel (the component
count bounds the walk). -/
def dirChainGo : Nat → List String → List String
  | 0, _ => []
  | k + 1, comps =>
    match comps with
    | [] => []
    | [_] => []
    | cs => joinComps cs.dropLast :: dirChainGo k cs.dropLast

/-- All proper ancestor paths of `object`, deepest first. -/
def parentPaths (object : String) : List String :=
  dirChainGo (splitOnSlash object).length (splitOnSlash object)

/-- Decimal representation of `n` zero-padded to five digits. -/
def pad5 (n : Nat) : String :=
  let s := toString n
  String.mk (List.replicate (5 - s.length) '0') ++ s

/-- Modelled from the spec: the deterministic mapping from a part number to
its on-disk file name (Go `partNumToPartFileName`, defined outside this
file): the zero-padded five-digit part number followed by the multipart
suffix, matching the "00000" descriptor naming of line 36. -/
def partNumToPartFileName (partNumber : Nat) : String :=
  pad5 partNumber ++ multipartSuffix

/-- Helper for `filepathExt`: scans the reversed character list; a slash
ends the scan with no extension, a dot yields the extension. -/
def extGo : List Char → List Char → String
  | [], _ => ""
  | c :: rest, acc =>
    if c = '/' then ""
    else if c = '.' then String.mk ('.' :: acc)
    else extGo rest (c :: acc)

/-- Models Go `filepath.Ext`: the suffix of the final path element starting
at its final dot, or "" if there is none. -/
def filepathExt (p : String) : String :=
  extGo p.data.reverse []

/-- Models `strings.TrimPrefix(ext, ".")`. -/
def trimDot (ext : String) : String :=
  match ext.data with
  | '.' :: rest => String.mk rest
  | _ => ext

/-- Models `strings.ToLower` character by character. -/
def toLowerStr (s : String) : String :=
  String.mk (s.data.map Char.toLower)

/-! ## The storage environment and the backend primitives -/

/-- The read-only environment of the object layer: the existing buckets, the
failure-injection sets of the storage backend, the bucket/object name
validators (`IsValidBucketName`/`IsValidObjectName`, external collaborators,
taken as parameters), and the MIME lookup table (`mimedb.DB`, external
collaborator, taken as a parameter). -/
structure Env where
  buckets : List String
  failStat : List (String × String)
  failCreate : List (String × String)
  failDelete : List (String × String)
  failRename : List (String × String)
  isValidBucketName : String → Bool
  isValidObjectName : String → Bool
  mimeDB : String → Option String

/-- Translation of a backend error at the object-layer boundary
(`toObjectErr`, defined outside this file; modelled from the spec: backend
errors are classified by (bucket, object) context, not-found becomes
`ObjectNotFound`, others pass through). -/
def toObjectErr (e : StorageErr) (bucket object : String) : ObjErr :=
  match e with
  | .errFileNotFound => .ObjectNotFound bucket object
  | e => .Backend e

/-- Modelled from the spec: the bucket-existence check consults the backend
(one volume-stat call). -/
def isBucketExist (env : Env) (bucket : String) : Bool × List SCall :=
  (env.buckets.contains bucket, [.statVol bucket])

/-- Byte length of a file's contents (a descriptor's serialized length is
irrelevant to this layer and reported as 0). -/
def contentLen : FContent → Int
  | .bytes bs => (bs.length : Int)
  | .mpInfo _ => 0

/-- `StatFile`: an injected fault, the stored attributes, or not-found. -/
def statFileCore (env : Env) (fs : FilesMap) (volume p : String) : Except StorageErr FileInfo :=
  if (volume, p) ∈ env.failStat then .error .errDiskFailure
  else
    match lookupF fs volume p with
    | some fd =>
      .ok { size := contentLen fd.content, modTime := fd.modTime, md5Sum := fd.md5, isDir := fd.isDir }
    | none => .error .errFileNotFound

/-- `ReadFile` from a byte offset: the suffix of the stored bytes. -/
def readFileCore (fs : FilesMap) (volume p : String) (offset : Int) : Except StorageErr (List Nat) :=
  match lookupF fs volume p with
  | none => .error .errFileNotFound
  | some fd =>
    match fd.content with
    | .bytes bs =>
      if 0 ≤ offset ∧ offset ≤ (bs.length : Int) then .ok (bs.drop offset.toNat)
      else .error .errUnexpected
    | .mpInfo _ => .error .errUnexpected

/-- `DeleteFile`: an injected fault, removal, or not-found. -/
def deleteFileCore (env : Env) (fs : FilesMap) (volume p : String) : Option StorageErr × FilesMap :=
  if (volume, p) ∈ env.failDelete then (some .errDiskFailure, fs)
  else
    match lookupF fs volume p with
    | some _ => (none, removeF fs volume p)
    | none => (some .errFileNotFound, fs)

/-- `RenameFile`: an injected fault, or moving the source entry to the
destination key. -/
def renameFileCore (env : Env) (fs : FilesMap) (srcVol srcPath dstVol dstPath : String) :
    Option StorageErr × FilesMap :=
  if (srcVol, srcPath) ∈ env.failRename then (some .errDiskFailure, fs)
  else
    match lookupF fs srcVol srcPath with
    | none => (some .errFileNotFound, fs)
    | some fd => (none, insertF (removeF fs srcVol srcPath) dstVol dstPath fd)

/-! ## The multipart object model -/

/-- Embeds `getMultipartObjectInfo` (lines 215-227): read the part-zero
descriptor file and decode it (decoding embedded as the identity on
structured contents). -/
def getMultipartObjectInfoCore (fs : FilesMap) (bucket object : String) :
    Except StorageErr MultipartObjectInfo :=
  match lookupF fs bucket (pathJoin object multipartMetaFile) with
  | none => .error .errFileNotFound
  | some fd =>
    match fd.content with
    | .mpInfo info => .ok info
    | .bytes _ => .error .errDecodeFailed

/-- Backend calls issued by `getMultipartObjectInfo`. -/
def getMultipartObjectInfoCalls (bucket object : String) : List SCall :=
  [.readFile bucket (pathJoin object multipartMetaFile) 0]

/-- Embeds `isMultipartObject` (lines 380-389): stat the descriptor file;
not-found means "not multipart", other stat errors propagate. -/
def isMultipartObjectCore (env : Env) (fs : FilesMap) (bucket object : String) :
    Except StorageErr Bool :=
  match statFileCore env fs bucket (pathJoin object multipartMetaFile) with
  | .ok _ => .ok true
  | .error .errFileNotFound => .ok false
  | .error e => .error e

/-- Backend calls issued by `isMultipartObject`. -/
def isMultipartObjectCalls (bucket object : String) : List SCall :=
  [.statFile bucket (pathJoin object multipartMetaFile)]

/-- Modelled from the spec: `info.GetPartNumberOffset(startOffset)` (defined
outside this file): a forward scan over the ordered part sequence
accumulating sizes, returning the owning part's index and the residual
offset within it; fails when the offset exceeds the total size (or is
negative).  An offset equal to the total size locates index `parts.length`
with residual 0, past the last part. -/
def locateGo : List MultipartPartInfo → Int → Except StorageErr (Nat × Int)
  | [], offset => if offset = 0 then .ok (0, 0) else .error .errUnexpected
  | part :: parts, offset =>
    if offset < part.size then .ok (0, offset)
    else
      match locateGo parts (offset - part.size) with
      | .ok (i, r) => .ok (i + 1, r)
      | .error e => .error e

/-- Modelled from the spec: the offset-to-part locator, rejecting negative
offsets. -/
def GetPartNumberOffset (info : MultipartObjectInfo) (offset : Int) : Except StorageErr (Nat × Int) :=
  if offset < 0 then .error .errUnexpected else locateGo info.parts offset

/-- Total size of a part sequence. -/
def totalSize : List MultipartPartInfo → Int
  | [] => 0
  | part :: parts => part.size + totalSize parts

/-! ## The object read pipeline (`GetObject`, lines 151-212) -/

/-- The part-stitching loop of the reader goroutine (lines 185-210),
embedded synchronously: reads the remaining parts in order, the first from
`offset`, every subsequent one from offset 0, concatenating the contents; a
read error terminates the stream with that error.  The lazy pipe is
embedded as the full delivered byte sequence. -/
def readParts (fs : FilesMap) (bucket object : String) :
    List MultipartPartInfo → Int → Except StorageErr (List Nat) × List SCall
  | [], _ => (.ok [], [])
  | part :: rest, offset =>
    let p := pathJoin object (partNumToPartFileName part.partNumber)
    match readFileCore fs bucket p offset with
    | .error e => (.error e, [.readFile bucket p offset])
    | .ok bs =>
      match readParts fs bucket object rest 0 with
      | (.error e, cs) => (.error e, .readFile bucket p offset :: cs)
      | (.ok bsRest, cs) => (.ok (bs ++ bsRest), .readFile bucket p offset :: cs)

/-- Embeds `GetObject` (lines 151-212). -/
def GetObject (env : Env) (fs : FilesMap) (bucket object : String) (startOffset : Int) :
    Except ObjErr (List Nat) × List SCall :=
  if !(env.isValidBucketName bucket) then (.error (.BucketNameInvalid bucket), [])
  else
    let (ex, cs0) := isBucketExist env bucket
    if !ex then (.error (.BucketNotFound bucket), cs0)
    else if !(env.isValidObjectName object) then (.error (.ObjectNameInvalid bucket object), cs0)
    else
      match isMultipartObjectCore env fs bucket object with
      | .error e =>
        (.error (toObjectErr e bucket object), cs0 ++ isMultipartObjectCalls bucket object)
      | .ok false =>
        match statFileCore env fs bucket object with
        | .ok _ =>
          (match readFileCore fs bucket object startOffset with
           | .error e => .error (toObjectErr e bucket object)
           | .ok bs => .ok bs,
           cs0 ++ isMultipartObjectCalls bucket object ++
             [.statFile bucket object, .readFile bucket object startOffset])
        | .error e =>
          (.error (toObjectErr e bucket object),
           cs0 ++ isMultipartObjectCalls bucket object ++ [.statFile bucket object])
      | .ok true =>
        match getMultipartObjectInfoCore fs bucket object with
        | .error e =>
          (.error (toObjectErr e bucket object),
           cs0 ++ isMultipartObjectCalls bucket object ++ getMultipartObjectInfoCalls bucket object)
        | .ok info =>
          match GetPartNumberOffset info startOffset with
          | .error e =>
            (.error (toObjectErr e bucket object),
             cs0 ++ isMultipartObjectCalls bucket object ++ getMultipartObjectInfoCalls bucket object)
          | .ok (partIndex, offset) =>
            match readParts fs bucket object (info.parts.drop partIndex) offset with
            | (.error e, cs) =>
              (.error (.Backend e),
               cs0 ++ isMultipartObjectCalls bucket object ++
                 getMultipartObjectInfoCalls bucket object ++ cs)
            | (.ok bs, cs) =>
              (.ok bs,
               cs0 ++ isMultipartObjectCalls bucket object ++
                 getMultipartObjectInfoCalls bucket object ++ cs)

/-! ## The object info resolver (`getObjectInfo`, lines 230-263) -/

/-- The content-type resolution of lines 247-253: from the lowercased
extension (without its dot) via the MIME table, defaulting to a generic
binary content type. -/
def contentTypeOf (mimeDB : String → Option String) (object : String) : String :=
  let objectExt := filepathExt object
  if objectExt ≠ "" then
    match mimeDB (toLowerStr (trimDot objectExt)) with
    | some ct => ct
    | none => "application/octet-stream"
  else "application/octet-stream"

/-- The externally visible object metadata (Go `ObjectInfo`). -/
structure ObjectInfo where
  bucket : String
  name : String
  modTime : Nat
  size : Int
  isDir : Bool
  contentType : String
  md5Sum : String
deriving DecidableEq, Repr

/-- The result assembly of lines 247-262. -/
def mkObjectInfo (env : Env) (bucket object : String) (fi : FileInfo) : ObjectInfo :=
  { bucket := bucket, name := object, modTime := fi.modTime, size := fi.size,
    isDir := fi.isDir, contentType := contentTypeOf env.mimeDB object, md5Sum := fi.md5Sum }

/-- Embeds `getObjectInfo` (lines 230-263): stat as a simple file; only on
not-found fall back to the multipart descriptor, taking size, mtime and
content hash from it (the zero `FileInfo`'s directory bit stays false). -/
def getObjectInfo (env : Env) (fs : FilesMap) (bucket object : String) :
    Except StorageErr ObjectInfo × List SCall :=
  match statFileCore env fs bucket object with
  | .ok fi => (.ok (mkObjectInfo env bucket object fi), [.statFile bucket object])
  | .error e =>
    if e ≠ .errFileNotFound then (.error e, [.statFile bucket object])
    else
      match getMultipartObjectInfoCore fs bucket object with
      | .error e2 =>
        (.error e2, .statFile bucket object :: getMultipartObjectInfoCalls bucket object)
      | .ok info =>
        (.ok (mkObjectInfo env bucket object
          { size := info.size, modTime := info.modTime, md5Sum := info.md5Sum, isDir := false }),
         .statFile bucket object :: getMultipartObjectInfoCalls bucket object)

/-- Embeds `GetObjectInfo` (lines 266-284). -/
def GetObjectInfo (env : Env) (fs : FilesMap) (bucket object : String) :
    Except ObjErr ObjectInfo × List SCall :=
  if !(env.isValidBucketName bucket) then (.error (.BucketNameInvalid bucket), [])
  else
    let (ex, cs0) := isBucketExist env bucket
    if !ex then (.error (.BucketNotFound bucket), cs0)
    else if !(env.isValidObjectName object) then (.error (.ObjectNameInvalid bucket object), cs0)
    else
      match getObjectInfo env fs bucket object with
      | (.error e, cs) => (.error (toObjectErr e bucket object), cs0 ++ cs)
      | (.ok info, cs) => (.ok info, cs0 ++ cs)

/-! ## The object delete pipeline (`deleteObject`/`DeleteObject`, lines 392-453) -/

/-- The per-part deletion fan-out of lines 408-420.  The goroutines target
the per-part file paths and record their errors in distinct slots of `errs`;
the fan-out is embedded as its sequential linearization in part order. -/
def deleteParts (env : Env) (bucket object : String) :
    FilesMap → List MultipartPartInfo → List (Option StorageErr) × FilesMap × List SCall
  | fs, [] => ([], fs, [])
  | fs, part :: rest =>
    let p := pathJoin object (partNumToPartFileName part.partNumber)
    let (e, fs1) := deleteFileCore env fs bucket p
    let (es, fs2, cs) := deleteParts env bucket object fs1 rest
    (e :: es, fs2, .deleteFile bucket p :: cs)

/-- Embeds `deleteObject` (lines 392-435): simple objects get one delete;
for a multipart object every part is deleted, any per-part error collapses
to the generic `errUnexpected` (lines 421-429), and only if all part
deletions succeeded is the descriptor file itself deleted. -/
def deleteObject (env : Env) (fs : FilesMap) (bucket object : String) :
    Option StorageErr × FilesMap × List SCall :=
  match isMultipartObjectCore env fs bucket object with
  | .error e => (some e, fs, isMultipartObjectCalls bucket object)
  | .ok false =>
    let (e, fs1) := deleteFileCore env fs bucket object
    (e, fs1, isMultipartObjectCalls bucket object ++ [.deleteFile bucket object])
  | .ok true =>
    match getMultipartObjectInfoCore fs bucket object with
    | .error e =>
      (some e, fs, isMultipartObjectCalls bucket object ++ getMultipartObjectInfoCalls bucket object)
    | .ok info =>
      let (errs, fs1, cs) := deleteParts env bucket object fs info.parts
      if errs.any Option.isSome then
        (some .errUnexpected, fs1,
         isMultipartObjectCalls bucket object ++ getMultipartObjectInfoCalls bucket object ++ cs)
      else
        let (e, fs2) := deleteFileCore env fs1 bucket (pathJoin object multipartMetaFile)
        (e, fs2,
         isMultipartObjectCalls bucket object ++ getMultipartObjectInfoCalls bucket object ++
           cs ++ [.deleteFile bucket (pathJoin object multipartMetaFile)])

/-- Embeds `DeleteObject` (lines 438-453). -/
def DeleteObject (env : Env) (fs : FilesMap) (bucket object : String) :
    Option ObjErr × FilesMap × List SCall :=
  if !(env.isValidBucketName bucket) then (some (.BucketNameInvalid bucket), fs, [])
  else
    let (ex, cs0) := isBucketExist env bucket
    if !ex then (some (.BucketNotFound bucket), fs, cs0)
    else if !(env.isValidObjectName object) then (some (.ObjectNameInvalid bucket object), fs, cs0)
    else
      match deleteObject env fs bucket object with
      | (some e, fs1, cs) => (some (toObjectErr e bucket object), fs1, cs0 ++ cs)
      | (none, fs1, cs) => (none, fs1, cs0 ++ cs)

/-! ## The object write pipeline (`PutObject`, lines 287-377) -/

/-- The caller's data stream: the bytes it can deliver, then either clean
end of input (`none`) or a read error (`some e`). -/
structure Reader where
  bytes : List Nat
  errAfter : Option StorageErr
deriving DecidableEq, Repr

/-- The copy stage of lines 316-330: a size-bounded `io.CopyN` when
`size > 0` (short input is an error), an unbounded `io.Copy` otherwise
(the stream must end cleanly). -/
def copyData (size : Int) (data : Reader) : Except StorageErr (List Nat) :=
  if 0 < size then
    if size.toNat ≤ data.bytes.length then .ok (data.bytes.take size.toNat)
    else .error (data.errAfter.getD .errEOF)
  else
    match data.errAfter with
    | some e => .error e
    | none => .ok data.bytes

/-- The caller-supplied expected hash of lines 334-337: empty unless the
metadata map is non-empty, in which case the "md5Sum" entry (Go map lookup
of a missing key yields ""). -/
def metaMD5 (metadata : List (String × String)) : String :=
  if metadata = [] then "" else (metadata.lookup "md5Sum").getD ""

/-- File data of a freshly staged upload. -/
def stagedFile (bs : List Nat) : FileData :=
  { content := .bytes bs, modTime := 0, md5 := "", isDir := false }

/-- Modelled from the spec: the recursive parent-directory-is-object check
(`xl.parentDirIsObject`, defined outside this file): stats each ancestor
path in turn; an existing file there fails the check, not-found continues
to the next ancestor, any other stat error propagates. -/
def parentDirIsObjectGo (env : Env) (fs : FilesMap) (bucket : String) :
    List String → Option StorageErr × List SCall
  | [] => (none, [])
  | p :: ps =>
    match statFileCore env fs bucket p with
    | .ok _ => (some .errFileAccessDenied, [.statFile bucket p])
    | .error .errFileNotFound =>
      let (r, cs) := parentDirIsObjectGo env fs bucket ps
      (r, .statFile bucket p :: cs)
    | .error e => (some e, [.statFile bucket p])

/-- The rename step of lines 367-373: rename the staged file into place; on
rename failure delete the staged file, reporting a failing cleanup delete
in place of the rename error. -/
def putRenameStep (env : Env) (fs : FilesMap) (bucket object tempObj newMD5Hex : String) :
    Except ObjErr String × FilesMap × List SCall :=
  match renameFileCore env fs minioMetaBucket tempObj bucket object with
  | (none, fs1) => (.ok newMD5Hex, fs1, [.renameFile minioMetaBucket tempObj bucket object])
  | (some e, fs1) =>
    let (derr, fs2) := deleteFileCore env fs1 minioMetaBucket tempObj
    match derr with
    | some de =>
      (.error (toObjectErr de bucket object), fs2,
       [.renameFile minioMetaBucket tempObj bucket object, .deleteFile minioMetaBucket tempObj])
    | none =>
      (.error (toObjectErr e bucket object), fs2,
       [.renameFile minioMetaBucket tempObj bucket object, .deleteFile minioMetaBucket tempObj])

/-- Embeds `PutObject` (lines 287-377).  `CreateFile` hands out a stream
writer; the staged bytes land in the staging file when the copy completes,
and `safeCloseAndRemove` (defined outside this file; modelled from the
spec as aborting the writer and removing the staged file, embedded as an
always-successful removal) cleans up on copy or digest failure.  The
`fileWriter.Close()` of line 346 is embedded as always succeeding. -/
def PutObject (env : Env) (fs : FilesMap) (bucket object : String) (size : Int)
    (data : Reader) (metadata : List (String × String)) :
    Except ObjErr String × FilesMap × List SCall :=
  if !(env.isValidBucketName bucket) then (.error (.BucketNameInvalid bucket), fs, [])
  else
    let (ex, cs0) := isBucketExist env bucket
    if !ex then (.error (.BucketNotFound bucket), fs, cs0)
    else if !(env.isValidObjectName object) then (.error (.ObjectNameInvalid bucket object), fs, cs0)
    else
      let tempObj := pathJoin tmpMetaPfx (pathJoin bucket object)
      if (minioMetaBucket, tempObj) ∈ env.failCreate then
        (.error (toObjectErr .errDiskFailure bucket object), fs,
         cs0 ++ [.createFile minioMetaBucket tempObj])
      else
        let cs1 := cs0 ++ [.createFile minioMetaBucket tempObj]
        match copyData size data with
        | .error e =>
          (.error (toObjectErr e bucket object), removeF fs minioMetaBucket tempObj, cs1)
        | .ok copied =>
          let fs1 := insertF fs minioMetaBucket tempObj (stagedFile copied)
          let newMD5Hex := md5Hex copied
          let md5Given := metaMD5 metadata
          if md5Given ≠ "" ∧ newMD5Hex ≠ md5Given then
            (.error (.BadDigest md5Given newMD5Hex), removeF fs1 minioMetaBucket tempObj, cs1)
          else
            match parentDirIsObjectGo env fs1 bucket (parentPaths object) with
            | (some e, cs2) => (.error (toObjectErr e bucket object), fs1, cs1 ++ cs2)
            | (none, cs2) =>
              match deleteObject env fs1 bucket object with
              | (some e, fs2, cs3) =>
                if e = .errFileNotFound then
                  let (r, fs3, cs4) := putRenameStep env fs2 bucket object tempObj newMD5Hex
                  (r, fs3, cs1 ++ cs2 ++ cs3 ++ cs4)
                else (.error (toObjectErr e bucket object), fs2, cs1 ++ cs2 ++ cs3)
              | (none, fs2, cs3) =>
                let (r, fs3, cs4) := putRenameStep env fs2 bucket object tempObj newMD5Hex
                (r, fs3, cs1 ++ cs2 ++ cs3 ++ cs4)

/-! ## C9: name validation versus backend calls -/

/-- Test environment for C9: bucket "b" exists, the object name "bad" is
rejected by the object-name validator, no faults injected. -/
def envC9 : Env :=
  { buckets := ["b"], failStat := [], failCreate := [], failDelete := [],
    failRename := [], isValidBucketName := (fun _ => true),
    isValidObjectName := (fun s => s != "bad"), mimeDB := (fun _ => none) }

/-- C9 (counterexample): a `GetObject` call with a valid, existing bucket
and an invalid object name does return `ObjectNameInvalid`, but only after
a backend call (the bucket-existence volume stat) has been issued, contrary
to the claim that validation errors precede any backend call. -/
theorem c9_counterexample :
    (GetObject envC9 [] "b" "bad" 0).1 = .error (.ObjectNameInvalid "b" "bad") ∧
    (GetObject envC9 [] "b" "bad" 0).2 ≠ [] := by
  decide

/-- C9 (amended): an invalid bucket name is rejected by all four object
operations with `BucketNameInvalid` before any backend call (the call list
is empty); an invalid object name is rejected with `ObjectNameInvalid` only
after the bucket-existence backend check (exactly one volume-stat call) and
only when the bucket exists — when it does not, `BucketNotFound` is
returned instead; in each case no object-level backend call is issued. -/
theorem c9_validation_order (env : Env) (fs : FilesMap) (bucket object : String)
    (off size : Int) (data : Reader) (metadata : List (String × String)) :
    (env.isValidBucketName bucket = false →
      GetObject env fs bucket object off = (.error (.BucketNameInvalid bucket), []) ∧
      GetObjectInfo env fs bucket object = (.error (.BucketNameInvalid bucket), []) ∧
      PutObject env fs bucket object size data metadata
        = (.error (.BucketNameInvalid bucket), fs, []) ∧
      DeleteObject env fs bucket object = (some (.BucketNameInvalid bucket), fs, [])) ∧
    (env.isValidBucketName bucket = true → env.buckets.contains bucket = true →
      env.isValidObjectName object = false →
      GetObject env fs bucket object off
        = (.error (.ObjectNameInvalid bucket object), [.statVol bucket]) ∧
      GetObjectInfo env fs bucket object
        = (.error (.ObjectNameInvalid bucket object), [.statVol bucket]) ∧
      PutObject env fs bucket object size data metadata
        = (.error (.ObjectNameInvalid bucket object), fs, [.statVol bucket]) ∧
      DeleteObject env fs bucket object
        = (some (.ObjectNameInvalid bucket object), fs, [.statVol bucket])) ∧
    (env.isValidBucketName bucket = true → env.buckets.contains bucket = false →
      GetObject env fs bucket object off = (.error (.BucketNotFound bucket), [.statVol bucket]) ∧
      GetObjectInfo env fs bucket object = (.error (.BucketNotFound bucket), [.statVol bucket]) ∧
      PutObject env fs bucket object size data metadata
        = (.error (.BucketNotFound bucket), fs, [.statVol bucket]) ∧
      DeleteObject env fs bucket object = (some (.BucketNotFound bucket), fs, [.statVol bucket])) := by
  refine ⟨?_, ?_, ?_⟩
  · intro h
    refine ⟨?_, ?_, ?_, ?_⟩ <;>
      simp [GetObject, GetObjectInfo, PutObject, DeleteObject, isBucketExist, h]
  · intro h1 h2 h3
    have h2' : bucket ∈ env.buckets := by simpa using h2
    refine ⟨?_, ?_, ?_, ?_⟩ <;>
      simp [GetObject, GetObjectInfo, PutObject, DeleteObject, isBucketExist, h1, h2', h3]
  · intro h1 h2
    have h2' : ¬ bucket ∈ env.buckets := by simpa using h2
    refine ⟨?_, ?_, ?_, ?_⟩ <;>
      simp [GetObject, GetObjectInfo, PutObject, DeleteObject, isBucketExist, h1, h2']

/-- Variant of the C9 test environment whose bucket-name validator rejects
"B". -/
def envC9b : Env :=
  { buckets := ["b"], failStat := [], failCreate := [], failDelete := [],
    failRename := [], isValidBucketName := (fun s => s != "B"),
    isValidObjectName := (fun _ => true), mimeDB := (fun _ => none) }

/-- Witness for C9: the amended theorem applied at concrete inputs — an
invalid bucket name (the validator rejects "B") is rejected with no backend
call, and an invalid object name on an existing bucket is rejected after
exactly the volume-stat call. -/
theorem c9_validation_order_witness :
    GetObject envC9b [] "B" "o" 0 = (.error (.BucketNameInvalid "B"), []) ∧
    DeleteObject envC9 [] "b" "bad" = (some (.ObjectNameInvalid "b" "bad"), [], [.statVol "b"]) := by
  constructor
  · exact ((c9_validation_order envC9b [] "B" "o" 0 0 ⟨[], none⟩ []).1 (by decide)).1
  · exact (((c9_validation_order envC9 [] "b" "bad" 0 0 ⟨[], none⟩ []).2.1
      (by decide) (by decide) (by decide)).2.2).2

/-! ## Lemmas about the delete pipeline -/

theorem pathJoin_ne_left (a b : String) : pathJoin a b ≠ a := by
  intro h
  have h1 : ("/" : String).length = 1 := rfl
  have hlen : (pathJoin a b).length = a.length + 1 + b.length := by
    simp [pathJoin, String.length_append, h1]
  rw [h] at hlen
  omega

theorem deleteParts_calls (env : Env) (bucket object : String) :
    ∀ (parts : List MultipartPartInfo) (fs : FilesMap),
      (deleteParts env bucket object fs parts).2.2
        = parts.map (fun part =>
            SCall.deleteFile bucket (pathJoin object (partNumToPartFileName part.partNumber))) := by
  intro parts
  induction parts with
  | nil => intro fs; rfl
  | cons part rest ih =>
    intro fs
    simp only [deleteParts, List.map_cons]
    obtain ⟨e, fs1⟩ := deleteFileCore env fs bucket
      (pathJoin object (partNumToPartFileName part.partNumber))
    simpa using ih fs1

theorem lookupF_deleteFileCore_other (env : Env) (fs : FilesMap) (vol p vol' p' : String)
    (h : (vol', p') ≠ (vol, p)) :
    lookupF (deleteFileCore env fs vol p).2 vol' p' = lookupF fs vol' p' := by
  simp only [deleteFileCore]
  by_cases hf : (vol, p) ∈ env.failDelete
  · simp [hf]
  · simp only [hf, if_neg]
    match lookupF fs vol p with
    | some fd => exact lookupF_removeF_other fs vol p vol' p' h
    | none => rfl

theorem lookupF_deleteParts_other (env : Env) (bucket object vol' p' : String) :
    ∀ (parts : List MultipartPartInfo) (fs : FilesMap),
      (∀ part ∈ parts,
        (vol', p') ≠ (bucket, pathJoin object (partNumToPartFileName part.partNumber))) →
      lookupF (deleteParts env bucket object fs parts).2.1 vol' p' = lookupF fs vol' p' := by
  intro parts
  induction parts with
  | nil => intro fs _; rfl
  | cons part rest ih =>
    intro fs hne
    have h1 : (vol', p') ≠ (bucket, pathJoin object (partNumToPartFileName part.partNumber)) :=
      hne part (List.mem_cons_self part rest)
    have hpre := lookupF_deleteFileCore_other env fs bucket
      (pathJoin object (partNumToPartFileName part.partNumber)) vol' p' h1
    have hrest : ∀ part' ∈ rest,
        (vol', p') ≠ (bucket, pathJoin object (partNumToPartFileName part'.partNumber)) :=
      fun part' hm => hne part' (List.mem_cons_of_mem part hm)
    simp only [deleteParts]
    rcases hcore : deleteFileCore env fs bucket
      (pathJoin object (partNumToPartFileName part.partNumber)) with ⟨e, fs1⟩
    rw [hcore] at hpre
    simp only at hpre
    have hih := ih fs1 hrest
    rcases hdp : deleteParts env bucket object fs1 rest with ⟨es, fs2, cs⟩
    rw [hdp] at hih
    simp only at hih ⊢
    exact hih.trans hpre

/-- Precondition under which every per-part deletion succeeds: walking the
parts in order, each part's file is present when reached and its path has
no injected delete fault. -/
def partsDeletableB (env : Env) (bucket object : String) : FilesMap → List MultipartPartInfo → Bool
  | _, [] => true
  | fs, part :: rest =>
    let p := pathJoin object (partNumToPartFileName part.partNumber)
    decide ((bucket, p) ∉ env.failDelete) && (lookupF fs bucket p).isSome
      && partsDeletableB env bucket object (removeF fs bucket p) rest

/-- Iterated removal of every part file. -/
def removePartsF (bucket object : String) : FilesMap → List MultipartPartInfo → FilesMap
  | fs, [] => fs
  | fs, part :: rest =>
    removePartsF bucket object
      (removeF fs bucket (pathJoin object (partNumToPartFileName part.partNumber))) rest

theorem deleteParts_deletable (env : Env) (bucket object : String) :
    ∀ (parts : List MultipartPartInfo) (fs : FilesMap),
      partsDeletableB env bucket object fs parts = true →
      (deleteParts env bucket object fs parts).1.any Option.isSome = false ∧
      (deleteParts env bucket object fs parts).2.1 = removePartsF bucket object fs parts := by
  intro parts
  induction parts with
  | nil => intro fs _; exact ⟨rfl, rfl⟩
  | cons part rest ih =>
    intro fs hd
    simp only [partsDeletableB, Bool.and_eq_true, decide_eq_true_eq] at hd
    obtain ⟨⟨hnf, hsome⟩, hrest⟩ := hd
    have hcore : deleteFileCore env fs bucket
        (pathJoin object (partNumToPartFileName part.partNumber))
        = (none, removeF fs bucket (pathJoin object (partNumToPartFileName part.partNumber))) := by
      simp only [deleteFileCore, if_neg hnf]
      match hl : lookupF fs bucket (pathJoin object (partNumToPartFileName part.partNumber)) with
      | some fd => rfl
      | none => rw [hl] at hsome; simp at hsome
    have := ih (removeF fs bucket (pathJoin object (partNumToPartFileName part.partNumber))) hrest
    simp only [deleteParts, hcore]
    obtain hdp : deleteParts env bucket object
        (removeF fs bucket (pathJoin object (partNumToPartFileName part.partNumber))) rest
        = _ := rfl
    simp only [removePartsF]
    obtain ⟨h1, h2⟩ := this
    constructor
    · simp only [List.any_cons, Option.isSome_none, Bool.false_or]
      exact h1
    · exact h2

theorem lookupF_removePartsF_other (bucket object vol' p' : String) :
    ∀ (parts : List MultipartPartInfo) (fs : FilesMap),
      (∀ part ∈ parts,
        (vol', p') ≠ (bucket, pathJoin object (partNumToPartFileName part.partNumber))) →
      lookupF (removePartsF bucket object fs parts) vol' p' = lookupF fs vol' p' := by
  intro parts
  induction parts with
  | nil => intro fs _; rfl
  | cons part rest ih =>
    intro fs hne
    simp only [removePartsF]
    have h1 := hne part (List.mem_cons_self part rest)
    have hrest : ∀ part' ∈ rest,
        (vol', p') ≠ (bucket, pathJoin object (partNumToPartFileName part'.partNumber)) :=
      fun part' hm => hne part' (List.mem_cons_of_mem part hm)
    exact (ih _ hrest).trans
      (lookupF_removeF_other fs bucket (pathJoin object (partNumToPartFileName part.partNumber))
        vol' p' h1)

theorem deleteObject_multipart_run (env : Env) (fs : FilesMap) (bucket object : String)
    (info : MultipartObjectInfo)
    (hstat : (bucket, pathJoin object multipartMetaFile) ∉ env.failStat)
    (hdesc : (lookupF fs bucket (pathJoin object multipartMetaFile)).map FileData.content
      = some (.mpInfo info)) :
    deleteObject env fs bucket object
      = (if (deleteParts env bucket object fs info.parts).1.any Option.isSome then
          (some .errUnexpected, (deleteParts env bucket object fs info.parts).2.1,
           isMultipartObjectCalls bucket object ++ getMultipartObjectInfoCalls bucket object ++
             (deleteParts env bucket object fs info.parts).2.2)
        else
          ((deleteFileCore env (deleteParts env bucket object fs info.parts).2.1 bucket
              (pathJoin object multipartMetaFile)).1,
           (deleteFileCore env (deleteParts env bucket object fs info.parts).2.1 bucket
              (pathJoin object multipartMetaFile)).2,
           isMultipartObjectCalls bucket object ++ getMultipartObjectInfoCalls bucket object ++
             (deleteParts env bucket object fs info.parts).2.2 ++
             [.deleteFile bucket (pathJoin object multipartMetaFile)])) := by
  obtain ⟨fd, hlf, hfc⟩ : ∃ fd, lookupF fs bucket (pathJoin object multipartMetaFile) = some fd ∧
      fd.content = .mpInfo info := by
    match hl : lookupF fs bucket (pathJoin object multipartMetaFile) with
    | some fd => rw [hl] at hdesc; simp at hdesc; exact ⟨fd, rfl, hdesc⟩
    | none => rw [hl] at hdesc; simp at hdesc
  have hmp : isMultipartObjectCore env fs bucket object = .ok true := by
    simp [isMultipartObjectCore, statFileCore, hstat, hlf]
  have hgm : getMultipartObjectInfoCore fs bucket object = .ok info := by
    simp [getMultipartObjectInfoCore, hlf, hfc]
  simp only [deleteObject, hmp, hgm]

theorem deleteObject_simple_run (env : Env) (fs : FilesMap) (bucket object : String)
    (hstat : (bucket, pathJoin object multipartMetaFile) ∉ env.failStat)
    (hdesc : lookupF fs bucket (pathJoin object multipartMetaFile) = none) :
    deleteObject env fs bucket object
      = ((deleteFileCore env fs bucket object).1, (deleteFileCore env fs bucket object).2,
         isMultipartObjectCalls bucket object ++ [.deleteFile bucket object]) := by
  have hmp : isMultipartObjectCore env fs bucket object = .ok false := by
    simp [isMultipartObjectCore, statFileCore, hstat, hdesc]
  simp only [deleteObject, hmp]

theorem DeleteObject_run (env : Env) (fs : FilesMap) (bucket object : String)
    (hvb : env.isValidBucketName bucket = true)
    (hbe : bucket ∈ env.buckets)
    (hvo : env.isValidObjectName object = true) :
    DeleteObject env fs bucket object
      = ((deleteObject env fs bucket object).1.map (fun e => toObjectErr e bucket object),
         (deleteObject env fs bucket object).2.1,
         .statVol bucket :: (deleteObject env fs bucket object).2.2) := by
  have hbe' : env.buckets.contains bucket = true := by simpa using hbe
  simp only [DeleteObject, isBucketExist, hvb, hvo, hbe', Bool.not_true, Bool.false_eq_true,
    if_false]
  rcases hdo : deleteObject env fs bucket object with ⟨r, fs1, cs⟩
  cases r <;> simp [hbe, hbe']

/-! ## C3 and C4: the multipart delete pipeline -/

/-- C3: for a multipart object, `deleteObject` issues exactly one backend
`DeleteFile` per part (after the descriptor stat and read, and before any
descriptor delete); if any part deletion returned an error the operation
returns the single generic `errUnexpected` (not the underlying error) and
the descriptor file is untouched; only when every part deletion succeeded
is the descriptor file itself deleted (the operation then returns the
result of that delete, with the descriptor removed from the file map on
success). -/
theorem c3_deleteObject_multipart (env : Env) (fs : FilesMap) (bucket object : String)
    (info : MultipartObjectInfo)
    (hstat : (bucket, pathJoin object multipartMetaFile) ∉ env.failStat)
    (hdesc : (lookupF fs bucket (pathJoin object multipartMetaFile)).map FileData.content
      = some (.mpInfo info))
    (hne : ∀ part ∈ info.parts,
      (bucket, pathJoin object multipartMetaFile)
        ≠ (bucket, pathJoin object (partNumToPartFileName part.partNumber))) :
    (deleteObject env fs bucket object).2.2
      = SCall.statFile bucket (pathJoin object multipartMetaFile)
        :: SCall.readFile bucket (pathJoin object multipartMetaFile) 0
        :: (info.parts.map (fun part =>
              SCall.deleteFile bucket (pathJoin object (partNumToPartFileName part.partNumber)))
            ++ (if (deleteParts env bucket object fs info.parts).1.any Option.isSome then []
                else [.deleteFile bucket (pathJoin object multipartMetaFile)])) ∧
    ((deleteParts env bucket object fs info.parts).1.any Option.isSome = true →
      (deleteObject env fs bucket object).1 = some .errUnexpected ∧
      lookupF (deleteObject env fs bucket object).2.1 bucket (pathJoin object multipartMetaFile)
        = lookupF fs bucket (pathJoin object multipartMetaFile)) ∧
    ((deleteParts env bucket object fs info.parts).1.any Option.isSome = false →
      (deleteObject env fs bucket object).1
        = (deleteFileCore env (deleteParts env bucket object fs info.parts).2.1 bucket
            (pathJoin object multipartMetaFile)).1 ∧
      (deleteObject env fs bucket object).2.1
        = (deleteFileCore env (deleteParts env bucket object fs info.parts).2.1 bucket
            (pathJoin object multipartMetaFile)).2) := by
  have hrun := deleteObject_multipart_run env fs bucket object info hstat hdesc
  have hcalls := deleteParts_calls env bucket object info.parts fs
  refine ⟨?_, ?_, ?_⟩
  · rw [hrun]
    by_cases hany : (deleteParts env bucket object fs info.parts).1.any Option.isSome
    · simp [hany, isMultipartObjectCalls, getMultipartObjectInfoCalls, hcalls]
    · simp [hany, isMultipartObjectCalls, getMultipartObjectInfoCalls, hcalls]
  · intro hany
    rw [hrun]
    constructor
    · simp [hany]
    · simp only [hany, if_true]
      exact lookupF_deleteParts_other env bucket object bucket
        (pathJoin object multipartMetaFile) info.parts fs hne
  · intro hany
    rw [hrun]
    simp [hany]

/-- Test environment for C3: the backend delete of part 1 fails. -/
def envC3 : Env :=
  { buckets := ["b"], failStat := [], failCreate := [],
    failDelete := [("b", pathJoin "o" (partNumToPartFileName 1))], failRename := [],
    isValidBucketName := (fun _ => true), isValidObjectName := (fun _ => true),
    mimeDB := (fun _ => none) }

/-- Two-part descriptor used by the C3 and C4 test fixtures. -/
def infoC3 : MultipartObjectInfo :=
  { parts := [⟨1, "e1", 3⟩, ⟨2, "e2", 3⟩], size := 6, modTime := 5, md5Sum := "m" }

/-- Files for C3: descriptor and both parts present. -/
def fsC3 : FilesMap :=
  [(("b", pathJoin "o" multipartMetaFile), ⟨.mpInfo infoC3, 5, "", false⟩),
   (("b", pathJoin "o" (partNumToPartFileName 1)), ⟨.bytes [1, 2, 3], 1, "", false⟩),
   (("b", pathJoin "o" (partNumToPartFileName 2)), ⟨.bytes [4, 5, 6], 2, "", false⟩)]

/-- Witness for C3: with part 1's backend delete failing, the delete of the
two-part object returns the generic unexpected error and leaves the
descriptor file untouched. -/
theorem c3_deleteObject_multipart_witness :
    (deleteObject envC3 fsC3 "b" "o").1 = some .errUnexpected ∧
    lookupF (deleteObject envC3 fsC3 "b" "o").2.1 "b" (pathJoin "o" multipartMetaFile)
      = lookupF fsC3 "b" (pathJoin "o" multipartMetaFile) :=
  (c3_deleteObject_multipart envC3 fsC3 "b" "o" infoC3 (by decide) (by decide)
    (by decide)).2.1 (by decide)

/-- Test environment for C4: no faults are injected anywhere. -/
def envC4 : Env :=
  { buckets := ["b"], failStat := [], failCreate := [], failDelete := [], failRename := [],
    isValidBucketName := (fun _ => true), isValidObjectName := (fun _ => true),
    mimeDB := (fun _ => none) }

/-- Files for C4: the descriptor and part 2 are present, part 1 is already
gone (as after an earlier partial delete). -/
def fsC4 : FilesMap :=
  [(("b", pathJoin "o" multipartMetaFile), ⟨.mpInfo infoC3, 5, "", false⟩),
   (("b", pathJoin "o" (partNumToPartFileName 2)), ⟨.bytes [4, 5, 6], 2, "", false⟩)]

/-- C4 (counterexample): re-deleting a multipart object whose part 1 was
already removed makes that part deletion fail with file-not-found — and the
code treats this as a failure, not a success: the overall delete returns
the generic unexpected error and the descriptor file is still present. -/
theorem c4_counterexample :
    (deleteParts envC4 "b" "o" fsC4 infoC3.parts).1 = [some .errFileNotFound, none] ∧
    (deleteObject envC4 fsC4 "b" "o").1 = some .errUnexpected ∧
    lookupF (deleteObject envC4 fsC4 "b" "o").2.1 "b" (pathJoin "o" multipartMetaFile) ≠ none := by
  decide

/-- C4 (amended): a part deletion that fails with file-not-found is treated
as a failure of the overall delete like any other error — the delete
returns the generic unexpected error and the descriptor file is kept, so
re-deleting after a partial delete does not succeed; and calling
`DeleteObject` twice on the same existing object (simple or fully intact
multipart) yields success the first time and `ObjectNotFound` (not some
other hard failure) the second time. -/
theorem c4_delete_retry (env : Env) (fs : FilesMap) (bucket object : String)
    (info : MultipartObjectInfo) :
    ((bucket, pathJoin object multipartMetaFile) ∉ env.failStat →
     (lookupF fs bucket (pathJoin object multipartMetaFile)).map FileData.content
       = some (.mpInfo info) →
     (∀ part ∈ info.parts,
       (bucket, pathJoin object multipartMetaFile)
         ≠ (bucket, pathJoin object (partNumToPartFileName part.partNumber))) →
     some StorageErr.errFileNotFound ∈ (deleteParts env bucket object fs info.parts).1 →
      (deleteObject env fs bucket object).1 = some .errUnexpected ∧
      lookupF (deleteObject env fs bucket object).2.1 bucket (pathJoin object multipartMetaFile)
        = lookupF fs bucket (pathJoin object multipartMetaFile)) ∧
    (env.isValidBucketName bucket = true → bucket ∈ env.buckets →
     env.isValidObjectName object = true →
     (bucket, pathJoin object multipartMetaFile) ∉ env.failStat →
     lookupF fs bucket (pathJoin object multipartMetaFile) = none →
     (bucket, object) ∉ env.failDelete →
     (lookupF fs bucket object).isSome = true →
      (DeleteObject env fs bucket object).1 = none ∧
      (DeleteObject env (DeleteObject env fs bucket object).2.1 bucket object).1
        = some (.ObjectNotFound bucket object)) ∧
    (env.isValidBucketName bucket = true → bucket ∈ env.buckets →
     env.isValidObjectName object = true →
     (bucket, pathJoin object multipartMetaFile) ∉ env.failStat →
     (lookupF fs bucket (pathJoin object multipartMetaFile)).map FileData.content
       = some (.mpInfo info) →
     partsDeletableB env bucket object fs info.parts = true →
     (∀ part ∈ info.parts,
       (bucket, pathJoin object multipartMetaFile)
         ≠ (bucket, pathJoin object (partNumToPartFileName part.partNumber))) →
     (bucket, pathJoin object multipartMetaFile) ∉ env.failDelete →
     lookupF fs bucket object = none →
     (bucket, object) ∉ env.failDelete →
      (DeleteObject env fs bucket object).1 = none ∧
      (DeleteObject env (DeleteObject env fs bucket object).2.1 bucket object).1
        = some (.ObjectNotFound bucket object)) := by
  have hObjNeDesc : ((bucket, object) : String × String)
      ≠ (bucket, pathJoin object multipartMetaFile) := by
    intro heq
    exact pathJoin_ne_left object multipartMetaFile (congrArg Prod.snd heq).symm
  refine ⟨?_, ?_, ?_⟩
  · intro hstat hdesc hne hmem
    have hany : (deleteParts env bucket object fs info.parts).1.any Option.isSome = true :=
      List.any_eq_true.mpr ⟨some .errFileNotFound, hmem, rfl⟩
    have hrun := deleteObject_multipart_run env fs bucket object info hstat hdesc
    rw [hrun]
    constructor
    · simp [hany]
    · simp only [hany, if_true]
      exact lookupF_deleteParts_other env bucket object bucket
        (pathJoin object multipartMetaFile) info.parts fs hne
  · intro hvb hbe hvo hstat hdescNone hfd hsome
    obtain ⟨fd, hlf⟩ : ∃ fd, lookupF fs bucket object = some fd := by
      cases h : lookupF fs bucket object with
      | some fd => exact ⟨fd, rfl⟩
      | none => rw [h] at hsome; simp at hsome
    have hdf : deleteFileCore env fs bucket object = (none, removeF fs bucket object) := by
      simp [deleteFileCore, hfd, hlf]
    have hdo1 : deleteObject env fs bucket object
        = (none, removeF fs bucket object,
           isMultipartObjectCalls bucket object ++ [.deleteFile bucket object]) := by
      rw [deleteObject_simple_run env fs bucket object hstat hdescNone, hdf]
    have hfirst := DeleteObject_run env fs bucket object hvb hbe hvo
    rw [hdo1] at hfirst
    have hfs2 : (DeleteObject env fs bucket object).2.1 = removeF fs bucket object := by
      rw [hfirst]
    have hdescNone2 : lookupF (removeF fs bucket object) bucket
        (pathJoin object multipartMetaFile) = none := by
      rw [lookupF_removeF_other fs bucket object bucket (pathJoin object multipartMetaFile)
        (fun heq => hObjNeDesc heq.symm)]
      exact hdescNone
    have hdf2 : deleteFileCore env (removeF fs bucket object) bucket object
        = (some .errFileNotFound, removeF fs bucket object) := by
      simp [deleteFileCore, hfd, lookupF_removeF_self]
    have hdo2 : deleteObject env (removeF fs bucket object) bucket object
        = (some .errFileNotFound, removeF fs bucket object,
           isMultipartObjectCalls bucket object ++ [.deleteFile bucket object]) := by
      rw [deleteObject_simple_run env (removeF fs bucket object) bucket object hstat hdescNone2,
        hdf2]
    have hsecond := DeleteObject_run env (removeF fs bucket object) bucket object hvb hbe hvo
    rw [hdo2] at hsecond
    rw [hfs2]
    constructor
    · rw [hfirst]
      rfl
    · rw [hsecond]
      rfl
  · intro hvb hbe hvo hstat hdesc hdel hne hdelDesc hobjNone hobjDel
    obtain ⟨fd, hlf, hfc⟩ : ∃ fd, lookupF fs bucket (pathJoin object multipartMetaFile) = some fd ∧
        fd.content = .mpInfo info := by
      match hl : lookupF fs bucket (pathJoin object multipartMetaFile) with
      | some fd => rw [hl] at hdesc; simp at hdesc; exact ⟨fd, rfl, hdesc⟩
      | none => rw [hl] at hdesc; simp at hdesc
    have hObjNePart : ∀ part ∈ info.parts,
        ((bucket, object) : String × String)
          ≠ (bucket, pathJoin object (partNumToPartFileName part.partNumber)) := by
      intro part hm heq
      exact pathJoin_ne_left object (partNumToPartFileName part.partNumber)
        (congrArg Prod.snd heq).symm
    obtain ⟨hanyF, hfsEq⟩ := deleteParts_deletable env bucket object info.parts fs hdel
    have hlookupDesc : lookupF (removePartsF bucket object fs info.parts) bucket
        (pathJoin object multipartMetaFile)
        = lookupF fs bucket (pathJoin object multipartMetaFile) :=
      lookupF_removePartsF_other bucket object bucket (pathJoin object multipartMetaFile)
        info.parts fs hne
    have hdfDesc : deleteFileCore env (removePartsF bucket object fs info.parts) bucket
        (pathJoin object multipartMetaFile)
        = (none, removeF (removePartsF bucket object fs info.parts) bucket
            (pathJoin object multipartMetaFile)) := by
      simp [deleteFileCore, hdelDesc, hlookupDesc, hlf]
    have hmrun := deleteObject_multipart_run env fs bucket object info hstat hdesc
    have hanyF' : (deleteParts env bucket object fs info.parts).1.any Option.isSome = false := hanyF
    have hdo1 : deleteObject env fs bucket object
        = (none, removeF (removePartsF bucket object fs info.parts) bucket
            (pathJoin object multipartMetaFile),
           isMultipartObjectCalls bucket object ++ getMultipartObjectInfoCalls bucket object ++
             (deleteParts env bucket object fs info.parts).2.2 ++
             [.deleteFile bucket (pathJoin object multipartMetaFile)]) := by
      rw [hmrun]
      simp only [hanyF', Bool.false_eq_true, if_false, hfsEq, hdfDesc]
    have hfirst := DeleteObject_run env fs bucket object hvb hbe hvo
    rw [hdo1] at hfirst
    have hfs2 : (DeleteObject env fs bucket object).2.1
        = removeF (removePartsF bucket object fs info.parts) bucket
            (pathJoin object multipartMetaFile) := by
      rw [hfirst]
    have hdescNone2 : lookupF (removeF (removePartsF bucket object fs info.parts) bucket
        (pathJoin object multipartMetaFile)) bucket (pathJoin object multipartMetaFile) = none :=
      lookupF_removeF_self _ bucket (pathJoin object multipartMetaFile)
    have hobjNone2 : lookupF (removeF (removePartsF bucket object fs info.parts) bucket
        (pathJoin object multipartMetaFile)) bucket object = none := by
      rw [lookupF_removeF_other _ bucket (pathJoin object multipartMetaFile) bucket object
        hObjNeDesc]
      rw [lookupF_removePartsF_other bucket object bucket object info.parts fs hObjNePart]
      exact hobjNone
    have hdf2 : deleteFileCore env (removeF (removePartsF bucket object fs info.parts) bucket
        (pathJoin object multipartMetaFile)) bucket object
        = (some .errFileNotFound, removeF (removePartsF bucket object fs info.parts) bucket
            (pathJoin object multipartMetaFile)) := by
      simp [deleteFileCore, hobjDel, hobjNone2]
    have hdo2 : deleteObject env (removeF (removePartsF bucket object fs info.parts) bucket
        (pathJoin object multipartMetaFile)) bucket object
        = (some .errFileNotFound, removeF (removePartsF bucket object fs info.parts) bucket
            (pathJoin object multipartMetaFile),
           isMultipartObjectCalls bucket object ++ [.deleteFile bucket object]) := by
      rw [deleteObject_simple_run env _ bucket object hstat hdescNone2, hdf2]
    have hsecond := DeleteObject_run env (removeF (removePartsF bucket object fs info.parts)
        bucket (pathJoin object multipartMetaFile)) bucket object hvb hbe hvo
    rw [hdo2] at hsecond
    rw [hfs2]
    constructor
    · rw [hfirst]
      rfl
    · rw [hsecond]
      rfl

/-- Witness for C4: deleting a freshly stored simple object succeeds, and
deleting it again yields `ObjectNotFound`. -/
theorem c4_delete_retry_witness :
    (DeleteObject envC4 [(("b", "s"), ⟨.bytes [9], 3, "", false⟩)] "b" "s").1 = none ∧
    (DeleteObject envC4
      (DeleteObject envC4 [(("b", "s"), ⟨.bytes [9], 3, "", false⟩)] "b" "s").2.1 "b" "s").1
      = some (.ObjectNotFound "b" "s") :=
  (c4_delete_retry envC4 [(("b", "s"), ⟨.bytes [9], 3, "", false⟩)] "b" "s" infoC3).2.1
    (by decide) (by decide) (by decide) (by decide) (by decide) (by decide) (by decide)

/-! ## C2: multipart reads reconstruct the concatenation -/

/-- The multipart object's parts are stored as recorded: walking parts and
contents together, each part's file holds exactly those bytes and the
descriptor's recorded size equals the content length. -/
def partsStoredB (fs : FilesMap) (bucket object : String) :
    List MultipartPartInfo → List (List Nat) → Bool
  | [], [] => true
  | part :: parts, c :: cs =>
    ((lookupF fs bucket (pathJoin object (partNumToPartFileName part.partNumber))).map
        FileData.content == some (.bytes c))
      && (part.size == (c.length : Int))
      && partsStoredB fs bucket object parts cs
  | _, _ => false

theorem partsStoredB_sizes_nonneg (fs : FilesMap) (bucket object : String) :
    ∀ (parts : List MultipartPartInfo) (contents : List (List Nat)),
      partsStoredB fs bucket object parts contents = true →
      ∀ part ∈ parts, 0 ≤ part.size := by
  intro parts
  induction parts with
  | nil => intro contents _ part hm; simp at hm
  | cons part rest ih =>
    intro contents h part' hm
    cases contents with
    | nil => simp [partsStoredB] at h
    | cons c cs =>
      simp only [partsStoredB, Bool.and_eq_true, beq_iff_eq] at h
      obtain ⟨⟨_, hsz⟩, hrest⟩ := h
      rcases List.mem_cons.mp hm with heq | hmem
      · subst heq; rw [hsz]; positivity
      · exact ih cs hrest part' hmem

theorem totalSize_nonneg :
    ∀ parts : List MultipartPartInfo, (∀ part ∈ parts, 0 ≤ part.size) →
      0 ≤ totalSize parts := by
  intro parts
  induction parts with
  | nil => intro _; simp [totalSize]
  | cons part rest ih =>
    intro h
    have h1 := h part (List.mem_cons_self part rest)
    have h2 := ih (fun p hp => h p (List.mem_cons_of_mem part hp))
    simp only [totalSize]
    omega

theorem locateGo_fail :
    ∀ parts : List MultipartPartInfo, (∀ part ∈ parts, 0 ≤ part.size) →
      ∀ off : Int, totalSize parts < off → locateGo parts off = .error .errUnexpected := by
  intro parts
  induction parts with
  | nil =>
    intro _ off h
    simp only [totalSize] at h
    have : ¬ off = 0 := by omega
    simp [locateGo, this]
  | cons part rest ih =>
    intro hpos off h
    simp only [totalSize] at h
    have htr : 0 ≤ totalSize rest :=
      totalSize_nonneg rest (fun p hp => hpos p (List.mem_cons_of_mem part hp))
    have hnl : ¬ off < part.size := by omega
    have hrec := ih (fun p hp => hpos p (List.mem_cons_of_mem part hp)) (off - part.size)
      (by omega)
    simp [locateGo, hnl, hrec]

theorem partsStoredB_head (fs : FilesMap) (bucket object : String)
    (part : MultipartPartInfo) (c : List Nat) :
    (lookupF fs bucket (pathJoin object (partNumToPartFileName part.partNumber))).map
        FileData.content = some (.bytes c) →
    ∃ fd, lookupF fs bucket (pathJoin object (partNumToPartFileName part.partNumber)) = some fd ∧
      fd.content = .bytes c := by
  intro hlk
  match hl : lookupF fs bucket (pathJoin object (partNumToPartFileName part.partNumber)) with
  | some fd => rw [hl] at hlk; simp at hlk; exact ⟨fd, rfl, hlk⟩
  | none => rw [hl] at hlk; simp at hlk

theorem readParts_zero (fs : FilesMap) (bucket object : String) :
    ∀ (parts : List MultipartPartInfo) (contents : List (List Nat)),
      partsStoredB fs bucket object parts contents = true →
      (readParts fs bucket object parts 0).1 = .ok contents.flatten := by
  intro parts
  induction parts with
  | nil =>
    intro contents h
    cases contents with
    | nil => rfl
    | cons c cs => simp [partsStoredB] at h
  | cons part rest ih =>
    intro contents h
    cases contents with
    | nil => simp [partsStoredB] at h
    | cons c cs =>
      simp only [partsStoredB, Bool.and_eq_true, beq_iff_eq] at h
      obtain ⟨⟨hlk, hsz⟩, hrest⟩ := h
      obtain ⟨fd, hlf, hfc⟩ := partsStoredB_head fs bucket object part c hlk
      have hread : readFileCore fs bucket
          (pathJoin object (partNumToPartFileName part.partNumber)) 0 = .ok c := by
        simp [readFileCore, hlf, hfc]
      have hz := ih cs hrest
      simp only [readParts, hread]
      rcases hrp : readParts fs bucket object rest 0 with ⟨r, cs2⟩
      rw [hrp] at hz
      simp only at hz
      subst hz
      simp

theorem locate_readParts (fs : FilesMap) (bucket object : String) :
    ∀ (parts : List MultipartPartInfo) (contents : List (List Nat)) (off : Int),
      partsStoredB fs bucket object parts contents = true →
      0 ≤ off → off ≤ totalSize parts →
      ∃ i r, locateGo parts off = .ok (i, r) ∧
        (readParts fs bucket object (parts.drop i) r).1
          = .ok (contents.flatten.drop off.toNat) := by
  intro parts
  induction parts with
  | nil =>
    intro contents off h h0 hle
    cases contents with
    | cons c cs => simp [partsStoredB] at h
    | nil =>
      simp only [totalSize] at hle
      have hz : off = 0 := le_antisymm hle h0
      subst hz
      exact ⟨0, 0, by simp [locateGo], by simp [readParts]⟩
  | cons part rest ih =>
    intro contents off h h0 hle
    cases contents with
    | nil => simp [partsStoredB] at h
    | cons c cs =>
      simp only [partsStoredB, Bool.and_eq_true, beq_iff_eq] at h
      obtain ⟨⟨hlk, hsz⟩, hrest⟩ := h
      obtain ⟨fd, hlf, hfc⟩ := partsStoredB_head fs bucket object part c hlk
      by_cases hlt : off < part.size
      · refine ⟨0, off, by simp [locateGo, hlt], ?_⟩
        have hoffle : off ≤ (c.length : Int) := by rw [hsz] at hlt; omega
        have hread : readFileCore fs bucket
            (pathJoin object (partNumToPartFileName part.partNumber)) off
            = .ok (c.drop off.toNat) := by
          simp [readFileCore, hlf, hfc, h0, hoffle]
        have hz := readParts_zero fs bucket object rest cs hrest
        simp only [List.drop_zero, readParts, hread]
        rcases hrp : readParts fs bucket object rest 0 with ⟨r, cs2⟩
        rw [hrp] at hz
        simp only at hz
        subst hz
        have hnle : off.toNat ≤ c.length := by omega
        simp [List.drop_append_of_le_length hnle]
      · push_neg at hlt
        have h0' : 0 ≤ off - part.size := by omega
        have hle' : off - part.size ≤ totalSize rest := by
          simp only [totalSize] at hle; omega
        obtain ⟨i, r, hloc, hread⟩ := ih cs (off - part.size) hrest h0' hle'
        have hszle : (c.length : Int) ≤ off := by rw [hsz] at hlt; omega
        refine ⟨i + 1, r, ?_, ?_⟩
        · have hnl : ¬ off < part.size := by omega
          simp [locateGo, hnl, hloc]
        · simp only [List.drop_succ_cons]
          rw [hread]
          have heq : (c :: cs).flatten.drop off.toNat
              = cs.flatten.drop (off - part.size).toNat := by
            have h1 : (off - part.size).toNat = off.toNat - c.length := by
              rw [hsz]; omega
            rw [h1]
            simp only [List.flatten_cons, List.drop_append_eq_append_drop]
            rw [List.drop_eq_nil_of_le (by omega)]
            simp
          rw [heq]

/-- C2: for a multipart object whose parts P1..Pn are stored behind the
storage abstraction with the recorded sizes, `GetObject` at any offset
`0 ≤ off ≤ s1+...+sn` returns exactly the suffix of the concatenation
P1||...||Pn starting at `off` (the first part is read from the intra-part
residual offset, every subsequent part from offset 0, with no gaps or
overlaps) — in particular the empty stream at `off = s1+...+sn` — and at
any offset beyond the total size it returns an error, not a stream. -/
theorem c2_getObject_multipart (env : Env) (fs : FilesMap) (bucket object : String)
    (info : MultipartObjectInfo) (contents : List (List Nat))
    (hvb : env.isValidBucketName bucket = true)
    (hbe : bucket ∈ env.buckets)
    (hvo : env.isValidObjectName object = true)
    (hstat : (bucket, pathJoin object multipartMetaFile) ∉ env.failStat)
    (hdesc : (lookupF fs bucket (pathJoin object multipartMetaFile)).map FileData.content
      = some (.mpInfo info))
    (hparts : partsStoredB fs bucket object info.parts contents = true) :
    (∀ off : Int, 0 ≤ off → off ≤ totalSize info.parts →
      (GetObject env fs bucket object off).1 = .ok (contents.flatten.drop off.toNat)) ∧
    (∀ off : Int, totalSize info.parts < off →
      (GetObject env fs bucket object off).1 = .error (.Backend .errUnexpected)) := by
  obtain ⟨fd, hlf, hfc⟩ : ∃ fd, lookupF fs bucket (pathJoin object multipartMetaFile) = some fd ∧
      fd.content = .mpInfo info := by
    match hl : lookupF fs bucket (pathJoin object multipartMetaFile) with
    | some fd => rw [hl] at hdesc; simp at hdesc; exact ⟨fd, rfl, hdesc⟩
    | none => rw [hl] at hdesc; simp at hdesc
  have hmp : isMultipartObjectCore env fs bucket object = .ok true := by
    simp [isMultipartObjectCore, statFileCore, hstat, hlf]
  have hgm : getMultipartObjectInfoCore fs bucket object = .ok info := by
    simp [getMultipartObjectInfoCore, hlf, hfc]
  have hbe' : env.buckets.contains bucket = true := by simpa using hbe
  have hsizes := partsStoredB_sizes_nonneg fs bucket object info.parts contents hparts
  constructor
  · intro off h0 hle
    obtain ⟨i, r, hloc, hread⟩ :=
      locate_readParts fs bucket object info.parts contents off hparts h0 hle
    have hgp : GetPartNumberOffset info off = .ok (i, r) := by
      simp [GetPartNumberOffset, not_lt.mpr h0, hloc]
    simp only [GetObject, hvb, hvo, hbe', isBucketExist, Bool.not_true, Bool.false_eq_true,
      if_false, hmp, hgm, hgp]
    rcases hrp : readParts fs bucket object (info.parts.drop i) r with ⟨res, cs⟩
    rw [hrp] at hread
    simp only at hread
    subst hread
    simp
  · intro off hgt
    have h0 : (0 : Int) ≤ totalSize info.parts := totalSize_nonneg info.parts hsizes
    have hgp : GetPartNumberOffset info off = .error .errUnexpected := by
      have hnn : ¬ off < 0 := by omega
      simp [GetPartNumberOffset, hnn, locateGo_fail info.parts hsizes off hgt]
    simp only [GetObject, hvb, hvo, hbe', isBucketExist, Bool.not_true, Bool.false_eq_true,
      if_false, hmp, hgm, hgp]
    simp [toObjectErr]

/-- Test environment for C2: bucket "b" exists, no faults, all names valid. -/
def envC2 : Env :=
  { buckets := ["b"], failStat := [], failCreate := [], failDelete := [], failRename := [],
    isValidBucketName := (fun _ => true), isValidObjectName := (fun _ => true),
    mimeDB := (fun _ => none) }

/-- Descriptor for C2: two parts of five bytes each. -/
def infoC2 : MultipartObjectInfo :=
  { parts := [⟨1, "e1", 5⟩, ⟨2, "e2", 5⟩], size := 10, modTime := 3, md5Sum := "m" }

/-- Files for C2: descriptor plus parts "abcde" and "fghij". -/
def fsC2 : FilesMap :=
  [(("b", pathJoin "o" multipartMetaFile), ⟨.mpInfo infoC2, 3, "", false⟩),
   (("b", pathJoin "o" (partNumToPartFileName 1)),
     ⟨.bytes [97, 98, 99, 100, 101], 1, "", false⟩),
   (("b", pathJoin "o" (partNumToPartFileName 2)),
     ⟨.bytes [102, 103, 104, 105, 106], 2, "", false⟩)]

/-- Witness for C2: reading the two-part object "abcde"||"fghij" from
offset 7 yields the suffix "hij", and reading past the total size fails. -/
theorem c2_getObject_multipart_witness :
    (GetObject envC2 fsC2 "b" "o" 7).1
      = .ok (([[97, 98, 99, 100, 101], [102, 103, 104, 105, 106]] :
          List (List Nat)).flatten.drop (7 : Int).toNat) ∧
    (GetObject envC2 fsC2 "b" "o" 11).1 = .error (.Backend .errUnexpected) := by
  have h := c2_getObject_multipart envC2 fsC2 "b" "o" infoC2
    [[97, 98, 99, 100, 101], [102, 103, 104, 105, 106]]
    (by decide) (by decide) (by decide) (by decide) (by decide) (by decide)
  exact ⟨h.1 7 (by decide) (by decide), h.2 11 (by decide)⟩

/-! ## The write pipeline: stage lemmas -/

theorem toObjectErr_ne_badDigest (e : StorageErr) (bucket object s1 s2 : String) :
    toObjectErr e bucket object ≠ .BadDigest s1 s2 := by
  cases e <;> simp [toObjectErr]

theorem parentDirIsObjectGo_none (env : Env) (fs : FilesMap) (bucket : String) :
    ∀ qs : List String,
      (∀ q ∈ qs, (bucket, q) ∉ env.failStat ∧ lookupF fs bucket q = none) →
      (parentDirIsObjectGo env fs bucket qs).1 = none := by
  intro qs
  induction qs with
  | nil => intro _; rfl
  | cons q rest ih =>
    intro h
    obtain ⟨hq, hl⟩ := h q (List.mem_cons_self q rest)
    have hstat : statFileCore env fs bucket q = .error .errFileNotFound := by
      simp [statFileCore, hq, hl]
    have hrest := ih (fun q' hm => h q' (List.mem_cons_of_mem q hm))
    simp only [parentDirIsObjectGo, hstat]
    rcases hps : parentDirIsObjectGo env fs bucket rest with ⟨pr, cs⟩
    rw [hps] at hrest
    simp only at hrest
    subst hrest
    rfl

theorem putObject_success (env : Env) (fs : FilesMap) (bucket object : String) (size : Int)
    (data : Reader) (metadata : List (String × String)) (copied : List Nat)
    (hvb : env.isValidBucketName bucket = true)
    (hbe : bucket ∈ env.buckets)
    (hvo : env.isValidObjectName object = true)
    (hbm : bucket ≠ minioMetaBucket)
    (hc : (minioMetaBucket, pathJoin tmpMetaPfx (pathJoin bucket object)) ∉ env.failCreate)
    (hcopy : copyData size data = .ok copied)
    (hmd : metaMD5 metadata = "" ∨ metaMD5 metadata = md5Hex copied)
    (hpar : ∀ q ∈ parentPaths object, (bucket, q) ∉ env.failStat ∧ lookupF fs bucket q = none)
    (hds : (bucket, pathJoin object multipartMetaFile) ∉ env.failStat)
    (hdn : lookupF fs bucket (pathJoin object multipartMetaFile) = none)
    (hon : lookupF fs bucket object = none)
    (hod : (bucket, object) ∉ env.failDelete)
    (hrn : (minioMetaBucket, pathJoin tmpMetaPfx (pathJoin bucket object)) ∉ env.failRename) :
    (PutObject env fs bucket object size data metadata).1 = .ok (md5Hex copied) ∧
    (PutObject env fs bucket object size data metadata).2.1
      = insertF (removeF fs minioMetaBucket (pathJoin tmpMetaPfx (pathJoin bucket object)))
          bucket object (stagedFile copied) := by
  have hbe' : env.buckets.contains bucket = true := by simpa using hbe
  have hkeyne : ∀ q : String,
      ((bucket, q) : String × String) ≠ (minioMetaBucket, pathJoin tmpMetaPfx (pathJoin bucket object)) :=
    fun q heq => hbm (congrArg Prod.fst heq)
  have hfs1look : ∀ q : String,
      lookupF (insertF fs minioMetaBucket (pathJoin tmpMetaPfx (pathJoin bucket object))
        (stagedFile copied)) bucket q = lookupF fs bucket q :=
    fun q => lookupF_insertF_other fs minioMetaBucket _ bucket q _ (hkeyne q)
  have hdig : ¬ (metaMD5 metadata ≠ "" ∧ md5Hex copied ≠ metaMD5 metadata) := by
    rcases hmd with hmd | hmd
    · intro hcon; exact hcon.1 hmd
    · intro hcon; exact hcon.2 hmd.symm
  have hpd : (parentDirIsObjectGo env
      (insertF fs minioMetaBucket (pathJoin tmpMetaPfx (pathJoin bucket object))
        (stagedFile copied)) bucket (parentPaths object)).1 = none := by
    apply parentDirIsObjectGo_none
    intro q hm
    exact ⟨(hpar q hm).1, (hfs1look q).trans (hpar q hm).2⟩
  have hdf : deleteFileCore env
      (insertF fs minioMetaBucket (pathJoin tmpMetaPfx (pathJoin bucket object))
        (stagedFile copied)) bucket object
      = (some .errFileNotFound,
         insertF fs minioMetaBucket (pathJoin tmpMetaPfx (pathJoin bucket object))
           (stagedFile copied)) := by
    simp [deleteFileCore, hod, (hfs1look object).trans hon]
  have hdo : deleteObject env
      (insertF fs minioMetaBucket (pathJoin tmpMetaPfx (pathJoin bucket object))
        (stagedFile copied)) bucket object
      = (some .errFileNotFound,
         insertF fs minioMetaBucket (pathJoin tmpMetaPfx (pathJoin bucket object))
           (stagedFile copied),
         isMultipartObjectCalls bucket object ++ [.deleteFile bucket object]) := by
    rw [deleteObject_simple_run env _ bucket object hds
      ((hfs1look (pathJoin object multipartMetaFile)).trans hdn), hdf]
  have hrs : putRenameStep env
      (insertF fs minioMetaBucket (pathJoin tmpMetaPfx (pathJoin bucket object))
        (stagedFile copied)) bucket object (pathJoin tmpMetaPfx (pathJoin bucket object))
        (md5Hex copied)
      = (.ok (md5Hex copied),
         insertF (removeF (insertF fs minioMetaBucket
             (pathJoin tmpMetaPfx (pathJoin bucket object)) (stagedFile copied))
           minioMetaBucket (pathJoin tmpMetaPfx (pathJoin bucket object)))
           bucket object (stagedFile copied),
         [.renameFile minioMetaBucket (pathJoin tmpMetaPfx (pathJoin bucket object))
            bucket object]) := by
    simp [putRenameStep, renameFileCore, hrn, lookupF_insertF_self]
  rcases hps : parentDirIsObjectGo env
      (insertF fs minioMetaBucket (pathJoin tmpMetaPfx (pathJoin bucket object))
        (stagedFile copied)) bucket (parentPaths object) with ⟨pr, cs2⟩
  rw [hps] at hpd
  simp only at hpd
  subst hpd
  simp only [PutObject, hvb, hvo, hbe', isBucketExist, Bool.not_true, Bool.false_eq_true,
    if_false, if_neg hc, hcopy, if_neg hdig, hps, hdo, hrs]
  rw [removeF_insertF_self]
  exact ⟨rfl, rfl⟩

theorem tempObj_ne_object (bucket object : String) :
    pathJoin tmpMetaPfx (pathJoin bucket object) ≠ object := by
  intro h
  have h1 : ("/" : String).length = 1 := rfl
  have hl : (pathJoin tmpMetaPfx (pathJoin bucket object)).length
      = tmpMetaPfx.length + 1 + (bucket.length + 1 + object.length) := by
    simp [pathJoin, String.length_append, h1]
  rw [h] at hl
  omega

theorem lookupF_deleteFileCore_sub (env : Env) (fs : FilesMap) (vol p vol' p' : String) :
    lookupF (deleteFileCore env fs vol p).2 vol' p' = lookupF fs vol' p' ∨
    lookupF (deleteFileCore env fs vol p).2 vol' p' = none := by
  by_cases h : ((vol', p') : String × String) = (vol, p)
  · injection h with h1 h2
    subst h1; subst h2
    simp only [deleteFileCore]
    by_cases hf : (vol', p') ∈ env.failDelete
    · left; rw [if_pos hf]
    · rw [if_neg hf]
      match hl : lookupF fs vol' p' with
      | some fd => right; exact lookupF_removeF_self fs vol' p'
      | none => left; exact hl
  · left; exact lookupF_deleteFileCore_other env fs vol p vol' p' h

theorem lookupF_deleteParts_sub (env : Env) (bucket object vol' p' : String) :
    ∀ (parts : List MultipartPartInfo) (fs : FilesMap),
      lookupF (deleteParts env bucket object fs parts).2.1 vol' p' = lookupF fs vol' p' ∨
      lookupF (deleteParts env bucket object fs parts).2.1 vol' p' = none := by
  intro parts
  induction parts with
  | nil => intro fs; left; rfl
  | cons part rest ih =>
    intro fs
    simp only [deleteParts]
    rcases hdf : deleteFileCore env fs bucket
      (pathJoin object (partNumToPartFileName part.partNumber)) with ⟨e, fs1⟩
    have hstep := lookupF_deleteFileCore_sub env fs bucket
      (pathJoin object (partNumToPartFileName part.partNumber)) vol' p'
    rw [hdf] at hstep
    simp only at hstep
    have htail := ih fs1
    rcases hdp : deleteParts env bucket object fs1 rest with ⟨es, fs2, cs⟩
    rw [hdp] at htail
    simp only at htail ⊢
    rcases htail with htail | htail
    · rcases hstep with hstep | hstep
      · left; exact htail.trans hstep
      · right; exact htail.trans hstep
    · right; exact htail

theorem lookupF_deleteObject_sub (env : Env) (fs : FilesMap) (bucket object vol' p' : String) :
    lookupF (deleteObject env fs bucket object).2.1 vol' p' = lookupF fs vol' p' ∨
    lookupF (deleteObject env fs bucket object).2.1 vol' p' = none := by
  unfold deleteObject
  split
  · left; rfl
  · exact lookupF_deleteFileCore_sub env fs bucket object vol' p'
  · split
    · left; rfl
    · rename_i info heqinfo
      have hstep := lookupF_deleteParts_sub env bucket object vol' p' info.parts fs
      split
      rename_i errs fs1 cs heq
      rw [heq] at hstep
      by_cases hany : errs.any Option.isSome
      · rw [if_pos hany]
        exact hstep
      · rw [if_neg hany]
        have hstep2 := lookupF_deleteFileCore_sub env fs1 bucket
          (pathJoin object multipartMetaFile) vol' p'
        rcases hstep2 with h2 | h2
        · rcases hstep with h1 | h1
          · left; exact h2.trans h1
          · right; exact h2.trans h1
        · right; exact h2

theorem lookupF_deleteObject_other_vol (env : Env) (fs : FilesMap)
    (bucket object vol' p' : String) (h : vol' ≠ bucket) :
    lookupF (deleteObject env fs bucket object).2.1 vol' p' = lookupF fs vol' p' := by
  have hkey : ∀ q : String, ((vol', p') : String × String) ≠ (bucket, q) :=
    fun q heq => h (congrArg Prod.fst heq)
  unfold deleteObject
  split
  · rfl
  · exact lookupF_deleteFileCore_other env fs bucket object vol' p' (hkey object)
  · split
    · rfl
    · rename_i info heqinfo
      have hstep := lookupF_deleteParts_other env bucket object vol' p' info.parts fs
        (fun part _ => hkey _)
      split
      rename_i errs fs1 cs heq
      rw [heq] at hstep
      by_cases hany : errs.any Option.isSome
      · rw [if_pos hany]
        exact hstep
      · rw [if_neg hany]
        have hstep2 := lookupF_deleteFileCore_other env fs1 bucket
          (pathJoin object multipartMetaFile) vol' p' (hkey _)
        exact hstep2.trans hstep

/-! ## C6, C7, C10: the write pipeline claims -/

/-- C6: a `PutObject` whose metadata carries a non-empty expected hash
different from the computed one fails with `BadDigest`, the staged
temporary file is removed before returning, and the destination object is
never touched. -/
theorem c6_putObject_digest_mismatch (env : Env) (fs : FilesMap) (bucket object : String)
    (size : Int) (data : Reader) (metadata : List (String × String)) (copied : List Nat)
    (hvb : env.isValidBucketName bucket = true)
    (hbe : bucket ∈ env.buckets)
    (hvo : env.isValidObjectName object = true)
    (hc : (minioMetaBucket, pathJoin tmpMetaPfx (pathJoin bucket object)) ∉ env.failCreate)
    (hcopy : copyData size data = .ok copied)
    (hne : metaMD5 metadata ≠ "")
    (hmm : md5Hex copied ≠ metaMD5 metadata) :
    (PutObject env fs bucket object size data metadata).1
      = .error (.BadDigest (metaMD5 metadata) (md5Hex copied)) ∧
    lookupF (PutObject env fs bucket object size data metadata).2.1 minioMetaBucket
      (pathJoin tmpMetaPfx (pathJoin bucket object)) = none ∧
    lookupF (PutObject env fs bucket object size data metadata).2.1 bucket object
      = lookupF fs bucket object := by
  have hbe' : env.buckets.contains bucket = true := by simpa using hbe
  have hkey : ((bucket, object) : String × String)
      ≠ (minioMetaBucket, pathJoin tmpMetaPfx (pathJoin bucket object)) :=
    fun heq => tempObj_ne_object bucket object (congrArg Prod.snd heq).symm
  have hdig : metaMD5 metadata ≠ "" ∧ md5Hex copied ≠ metaMD5 metadata := ⟨hne, hmm⟩
  simp only [PutObject, hvb, hvo, hbe', isBucketExist, Bool.not_true, Bool.false_eq_true,
    if_false, if_neg hc, hcopy, if_pos hdig]
  refine ⟨by trivial, ?_, ?_⟩
  · rw [removeF_insertF_self]
    exact lookupF_removeF_self fs minioMetaBucket _
  · rw [removeF_insertF_self]
    exact lookupF_removeF_other fs minioMetaBucket _ bucket object hkey

/-- Test environment for C6 and C7: bucket "b" exists, no faults. -/
def envC6 : Env :=
  { buckets := ["b"], failStat := [], failCreate := [], failDelete := [], failRename := [],
    isValidBucketName := (fun _ => true), isValidObjectName := (fun _ => true),
    mimeDB := (fun _ => none) }

/-- Witness for C6: an upload of two bytes with a bogus expected hash fails
with `BadDigest`, the staging namespace ends up empty and the destination
stays empty. -/
theorem c6_putObject_digest_mismatch_witness :
    (PutObject envC6 [] "b" "o" 0 ⟨[1, 2], none⟩ [("md5Sum", "bogus")]).1
      = .error (.BadDigest (metaMD5 [("md5Sum", "bogus")]) (md5Hex [1, 2])) ∧
    lookupF (PutObject envC6 [] "b" "o" 0 ⟨[1, 2], none⟩ [("md5Sum", "bogus")]).2.1
      minioMetaBucket (pathJoin tmpMetaPfx (pathJoin "b" "o")) = none ∧
    lookupF (PutObject envC6 [] "b" "o" 0 ⟨[1, 2], none⟩ [("md5Sum", "bogus")]).2.1
      "b" "o" = lookupF [] "b" "o" :=
  c6_putObject_digest_mismatch envC6 [] "b" "o" 0 ⟨[1, 2], none⟩ [("md5Sum", "bogus")] [1, 2]
    (by decide) (by decide) (by decide) (by decide) (by decide) (by decide) (by decide)

/-- C7: with `size > 0` exactly `size` bytes are copied from the reader
into the staged file and hashed (and become the stored object on success);
with `size ≤ 0` bytes are copied until end of input; on success the
returned value is the hex MD5 of exactly the copied bytes, and in
particular the payload "hello world" hashes to
5eb63bbbe01eeed093cb22bb8f5acdc3. -/
theorem c7_putObject_sized_copy (env : Env) (fs : FilesMap) (bucket object : String)
    (data : Reader) (metadata : List (String × String))
    (hvb : env.isValidBucketName bucket = true)
    (hbe : bucket ∈ env.buckets)
    (hvo : env.isValidObjectName object = true)
    (hbm : bucket ≠ minioMetaBucket)
    (hc : (minioMetaBucket, pathJoin tmpMetaPfx (pathJoin bucket object)) ∉ env.failCreate)
    (hmeta : metaMD5 metadata = "")
    (hpar : ∀ q ∈ parentPaths object, (bucket, q) ∉ env.failStat ∧ lookupF fs bucket q = none)
    (hds : (bucket, pathJoin object multipartMetaFile) ∉ env.failStat)
    (hdn : lookupF fs bucket (pathJoin object multipartMetaFile) = none)
    (hon : lookupF fs bucket object = none)
    (hod : (bucket, object) ∉ env.failDelete)
    (hrn : (minioMetaBucket, pathJoin tmpMetaPfx (pathJoin bucket object)) ∉ env.failRename) :
    (∀ size : Int, 0 < size → size.toNat ≤ data.bytes.length →
      (PutObject env fs bucket object size data metadata).1
        = .ok (md5Hex (data.bytes.take size.toNat)) ∧
      lookupF (PutObject env fs bucket object size data metadata).2.1 bucket object
        = some (stagedFile (data.bytes.take size.toNat))) ∧
    (∀ size : Int, size ≤ 0 → data.errAfter = none →
      (PutObject env fs bucket object size data metadata).1 = .ok (md5Hex data.bytes) ∧
      lookupF (PutObject env fs bucket object size data metadata).2.1 bucket object
        = some (stagedFile data.bytes)) ∧
    md5Hex [104, 101, 108, 108, 111, 32, 119, 111, 114, 108, 100]
      = "5eb63bbbe01eeed093cb22bb8f5acdc3" := by
  refine ⟨?_, ?_, by decide⟩
  · intro size hpos hlen
    have hcopy : copyData size data = .ok (data.bytes.take size.toNat) := by
      simp [copyData, hpos, hlen]
    have h := putObject_success env fs bucket object size data metadata _ hvb hbe hvo hbm hc
      hcopy (Or.inl hmeta) hpar hds hdn hon hod hrn
    refine ⟨h.1, ?_⟩
    rw [h.2]
    exact lookupF_insertF_self _ bucket object _
  · intro size hz herr
    have hnp : ¬ 0 < size := not_lt.mpr hz
    have hcopy : copyData size data = .ok data.bytes := by
      simp [copyData, hnp, herr]
    have h := putObject_success env fs bucket object size data metadata _ hvb hbe hvo hbm hc
      hcopy (Or.inl hmeta) hpar hds hdn hon hod hrn
    refine ⟨h.1, ?_⟩
    rw [h.2]
    exact lookupF_insertF_self _ bucket object _

/-- Witness for C7: storing the 11-byte payload "hello world" with size 11
returns the MD5 of exactly those bytes and stores them at the destination. -/
theorem c7_putObject_sized_copy_witness :
    (PutObject envC6 [] "b" "o" 11
        ⟨[104, 101, 108, 108, 111, 32, 119, 111, 114, 108, 100], none⟩ []).1
      = .ok (md5Hex ([104, 101, 108, 108, 111, 32, 119, 111, 114, 108, 100].take
          (11 : Int).toNat)) ∧
    lookupF (PutObject envC6 [] "b" "o" 11
        ⟨[104, 101, 108, 108, 111, 32, 119, 111, 114, 108, 100], none⟩ []).2.1 "b" "o"
      = some (stagedFile ([104, 101, 108, 108, 111, 32, 119, 111, 114, 108, 100].take
          (11 : Int).toNat)) :=
  (c7_putObject_sized_copy envC6 []
    "b" "o" ⟨[104, 101, 108, 108, 111, 32, 119, 111, 114, 108, 100], none⟩ []
    (by decide) (by decide) (by decide) (by decide) (by decide) (by decide) (by decide)
    (by decide) (by decide) (by decide) (by decide) (by decide)).1 11 (by decide) (by decide)

theorem putRenameStep_ne_badDigest (env : Env) (fs : FilesMap)
    (bucket object tempObj newMD5Hex e1 e2 : String) :
    (putRenameStep env fs bucket object tempObj newMD5Hex).1
      ≠ .error (.BadDigest e1 e2) := by
  unfold putRenameStep
  split
  · intro hcon
    simp at hcon
  · split
    split
    · intro hcon
      injection hcon with hcon2
      exact toObjectErr_ne_badDigest _ bucket object e1 e2 hcon2
    · intro hcon
      injection hcon with hcon2
      exact toObjectErr_ne_badDigest _ bucket object e1 e2 hcon2

/-- C10: a `PutObject` whose metadata map is empty or carries an empty
"md5Sum" entry performs no digest comparison: the call can never fail with
`BadDigest`, and absent other failures it succeeds returning the computed
MD5 hex digest of the copied bytes. -/
theorem c10_putObject_no_digest (env : Env) (fs : FilesMap) (bucket object : String)
    (size : Int) (data : Reader) (metadata : List (String × String))
    (hmeta : metadata = [] ∨ metadata.lookup "md5Sum" = some "") :
    (∀ e1 e2 : String,
      (PutObject env fs bucket object size data metadata).1 ≠ .error (.BadDigest e1 e2)) ∧
    (∀ copied : List Nat, env.isValidBucketName bucket = true → bucket ∈ env.buckets →
      env.isValidObjectName object = true → bucket ≠ minioMetaBucket →
      (minioMetaBucket, pathJoin tmpMetaPfx (pathJoin bucket object)) ∉ env.failCreate →
      copyData size data = .ok copied →
      (∀ q ∈ parentPaths object, (bucket, q) ∉ env.failStat ∧ lookupF fs bucket q = none) →
      (bucket, pathJoin object multipartMetaFile) ∉ env.failStat →
      lookupF fs bucket (pathJoin object multipartMetaFile) = none →
      lookupF fs bucket object = none →
      (bucket, object) ∉ env.failDelete →
      (minioMetaBucket, pathJoin tmpMetaPfx (pathJoin bucket object)) ∉ env.failRename →
      (PutObject env fs bucket object size data metadata).1 = .ok (md5Hex copied)) := by
  have hm : metaMD5 metadata = "" := by
    rcases hmeta with h | h
    · simp [metaMD5, h]
    · by_cases hnil : metadata = []
      · simp [metaMD5, hnil]
      · simp [metaMD5, hnil, h]
  constructor
  · intro e1 e2 hcon
    simp only [PutObject, isBucketExist] at hcon
    by_cases h1 : (!env.isValidBucketName bucket) = true
    · rw [if_pos h1] at hcon
      simp at hcon
    · rw [if_neg h1] at hcon
      by_cases h2 : (!env.buckets.contains bucket) = true
      · rw [if_pos h2] at hcon
        simp at hcon
      · rw [if_neg h2] at hcon
        by_cases h3 : (!env.isValidObjectName object) = true
        · rw [if_pos h3] at hcon
          simp at hcon
        · rw [if_neg h3] at hcon
          by_cases h4 : (minioMetaBucket, pathJoin tmpMetaPfx (pathJoin bucket object))
              ∈ env.failCreate
          · rw [if_pos h4] at hcon
            injection hcon with hcon2
            exact toObjectErr_ne_badDigest _ bucket object e1 e2 hcon2
          · rw [if_neg h4] at hcon
            rcases hcp : copyData size data with e | copied
            · rw [hcp] at hcon
              injection hcon with hcon2
              exact toObjectErr_ne_badDigest _ bucket object e1 e2 hcon2
            · rw [hcp] at hcon
              simp only at hcon
              have h5 : ¬ (metaMD5 metadata ≠ "" ∧ md5Hex copied ≠ metaMD5 metadata) :=
                fun hc => hc.1 hm
              rw [if_neg h5] at hcon
              rcases hpp : parentDirIsObjectGo env
                  (insertF fs minioMetaBucket (pathJoin tmpMetaPfx (pathJoin bucket object))
                    (stagedFile copied)) bucket (parentPaths object) with ⟨pr, cs2⟩
              rw [hpp] at hcon
              cases pr with
              | some e =>
                injection hcon with hcon2
                exact toObjectErr_ne_badDigest _ bucket object e1 e2 hcon2
              | none =>
                simp only at hcon
                rcases hdo : deleteObject env
                    (insertF fs minioMetaBucket (pathJoin tmpMetaPfx (pathJoin bucket object))
                      (stagedFile copied)) bucket object with ⟨r, fs2, cs3⟩
                rw [hdo] at hcon
                cases r with
                | some e =>
                  simp only at hcon
                  by_cases he : e = .errFileNotFound
                  · rw [if_pos he] at hcon
                    have hrs := putRenameStep_ne_badDigest env fs2 bucket object
                      (pathJoin tmpMetaPfx (pathJoin bucket object)) (md5Hex copied) e1 e2
                    rcases hps2 : putRenameStep env fs2 bucket object
                        (pathJoin tmpMetaPfx (pathJoin bucket object)) (md5Hex copied)
                      with ⟨r2, fs3, cs4⟩
                    rw [hps2] at hcon hrs
                    exact hrs hcon
                  · rw [if_neg he] at hcon
                    injection hcon with hcon2
                    exact toObjectErr_ne_badDigest _ bucket object e1 e2 hcon2
                | none =>
                  simp only at hcon
                  have hrs := putRenameStep_ne_badDigest env fs2 bucket object
                    (pathJoin tmpMetaPfx (pathJoin bucket object)) (md5Hex copied) e1 e2
                  rcases hps2 : putRenameStep env fs2 bucket object
                      (pathJoin tmpMetaPfx (pathJoin bucket object)) (md5Hex copied)
                    with ⟨r2, fs3, cs4⟩
                  rw [hps2] at hcon hrs
                  exact hrs hcon
  · intro copied hvb hbe hvo hbm hc hcopy hpar hds hdn hon hod hrn
    exact (putObject_success env fs bucket object size data metadata copied hvb hbe hvo hbm hc
      hcopy (Or.inl hm) hpar hds hdn hon hod hrn).1

/-- Witness for C10: an empty metadata map cannot produce a `BadDigest`
failure and the upload returns the computed digest. -/
theorem c10_putObject_no_digest_witness :
    (∀ e1 e2 : String,
      (PutObject envC6 [] "b" "o" 0 ⟨[1, 2], none⟩ []).1 ≠ .error (.BadDigest e1 e2)) ∧
    (PutObject envC6 [] "b" "o" 0 ⟨[1, 2], none⟩ []).1 = .ok (md5Hex [1, 2]) := by
  have h := c10_putObject_no_digest envC6 [] "b" "o" 0 ⟨[1, 2], none⟩ [] (Or.inl rfl)
  exact ⟨h.1, h.2 [1, 2] (by decide) (by decide) (by decide) (by decide) (by decide)
    (by decide) (by decide) (by decide) (by decide) (by decide) (by decide) (by decide)⟩

/-! ## C1: cleanup of the staged file on write failures -/

/-- Test environment for C1: bucket "b" exists, no faults injected. -/
def envC1 : Env :=
  { buckets := ["b"], failStat := [], failCreate := [], failDelete := [], failRename := [],
    isValidBucketName := (fun _ => true), isValidObjectName := (fun _ => true),
    mimeDB := (fun _ => none) }

/-- Files for C1: the path "a" is an existing object, so storing "a/b"
fails the parent-directory-is-object check. -/
def fsC1 : FilesMap := [(("b", "a"), ⟨.bytes [7], 1, "", false⟩)]

/-- C1 (counterexample): a `PutObject` of "a/b" under an existing object
"a" fails the parent-directory-is-object check — and returns with the
staged temporary file still present under the internal namespace, contrary
to the claim that the staged file is removed on every failure. -/
theorem c1_counterexample :
    (PutObject envC1 fsC1 "b" "a/b" 3 ⟨[1, 2, 3], none⟩ []).1
      = .error (.Backend .errFileAccessDenied) ∧
    lookupF (PutObject envC1 fsC1 "b" "a/b" 3 ⟨[1, 2, 3], none⟩ []).2.1
      minioMetaBucket (pathJoin tmpMetaPfx (pathJoin "b" "a/b"))
      = some (stagedFile [1, 2, 3]) := by
  decide

/-- C1 (amended): for a `PutObject` failure, the staged temporary file has
been removed when the failure is a copy failure, a digest mismatch, or a
rename failure whose cleanup delete succeeds; after a
parent-directory-is-object check failure or a failure (other than
not-found) of the delete of the pre-existing object, the staged file is
left behind under the internal namespace; in every one of these failure
cases no new object becomes visible at the destination path — the
destination entry is unchanged, or (after the pre-existing object was
deleted) absent. -/
theorem c1_putObject_failure_cleanup (env : Env) (fs : FilesMap) (bucket object : String)
    (size : Int) (data : Reader) (metadata : List (String × String))
    (hvb : env.isValidBucketName bucket = true)
    (hbe : bucket ∈ env.buckets)
    (hvo : env.isValidObjectName object = true)
    (hbm : bucket ≠ minioMetaBucket)
    (hc : (minioMetaBucket, pathJoin tmpMetaPfx (pathJoin bucket object)) ∉ env.failCreate) :
    (∀ e, copyData size data = .error e →
      (PutObject env fs bucket object size data metadata).1
        = .error (toObjectErr e bucket object) ∧
      lookupF (PutObject env fs bucket object size data metadata).2.1 minioMetaBucket
        (pathJoin tmpMetaPfx (pathJoin bucket object)) = none ∧
      lookupF (PutObject env fs bucket object size data metadata).2.1 bucket object
        = lookupF fs bucket object) ∧
    (∀ copied, copyData size data = .ok copied → metaMD5 metadata ≠ "" →
      md5Hex copied ≠ metaMD5 metadata →
      (PutObject env fs bucket object size data metadata).1
        = .error (.BadDigest (metaMD5 metadata) (md5Hex copied)) ∧
      lookupF (PutObject env fs bucket object size data metadata).2.1 minioMetaBucket
        (pathJoin tmpMetaPfx (pathJoin bucket object)) = none ∧
      lookupF (PutObject env fs bucket object size data metadata).2.1 bucket object
        = lookupF fs bucket object) ∧
    (∀ copied e, copyData size data = .ok copied →
      (metaMD5 metadata = "" ∨ metaMD5 metadata = md5Hex copied) →
      (parentDirIsObjectGo env (insertF fs minioMetaBucket
          (pathJoin tmpMetaPfx (pathJoin bucket object)) (stagedFile copied)) bucket
          (parentPaths object)).1 = some e →
      (PutObject env fs bucket object size data metadata).1
        = .error (toObjectErr e bucket object) ∧
      lookupF (PutObject env fs bucket object size data metadata).2.1 minioMetaBucket
        (pathJoin tmpMetaPfx (pathJoin bucket object)) = some (stagedFile copied) ∧
      lookupF (PutObject env fs bucket object size data metadata).2.1 bucket object
        = lookupF fs bucket object) ∧
    (∀ copied e, copyData size data = .ok copied →
      (metaMD5 metadata = "" ∨ metaMD5 metadata = md5Hex copied) →
      (parentDirIsObjectGo env (insertF fs minioMetaBucket
          (pathJoin tmpMetaPfx (pathJoin bucket object)) (stagedFile copied)) bucket
          (parentPaths object)).1 = none →
      (deleteObject env (insertF fs minioMetaBucket
          (pathJoin tmpMetaPfx (pathJoin bucket object)) (stagedFile copied))
          bucket object).1 = some e →
      e ≠ .errFileNotFound →
      (PutObject env fs bucket object size data metadata).1
        = .error (toObjectErr e bucket object) ∧
      lookupF (PutObject env fs bucket object size data metadata).2.1 minioMetaBucket
        (pathJoin tmpMetaPfx (pathJoin bucket object)) = some (stagedFile copied) ∧
      (lookupF (PutObject env fs bucket object size data metadata).2.1 bucket object
         = lookupF fs bucket object ∨
       lookupF (PutObject env fs bucket object size data metadata).2.1 bucket object
         = none)) ∧
    (∀ copied, copyData size data = .ok copied →
      (metaMD5 metadata = "" ∨ metaMD5 metadata = md5Hex copied) →
      (parentDirIsObjectGo env (insertF fs minioMetaBucket
          (pathJoin tmpMetaPfx (pathJoin bucket object)) (stagedFile copied)) bucket
          (parentPaths object)).1 = none →
      ((deleteObject env (insertF fs minioMetaBucket
           (pathJoin tmpMetaPfx (pathJoin bucket object)) (stagedFile copied))
           bucket object).1 = none ∨
       (deleteObject env (insertF fs minioMetaBucket
           (pathJoin tmpMetaPfx (pathJoin bucket object)) (stagedFile copied))
           bucket object).1 = some .errFileNotFound) →
      (minioMetaBucket, pathJoin tmpMetaPfx (pathJoin bucket object)) ∈ env.failRename →
      (minioMetaBucket, pathJoin tmpMetaPfx (pathJoin bucket object)) ∉ env.failDelete →
      (PutObject env fs bucket object size data metadata).1
        = .error (toObjectErr .errDiskFailure bucket object) ∧
      lookupF (PutObject env fs bucket object size data metadata).2.1 minioMetaBucket
        (pathJoin tmpMetaPfx (pathJoin bucket object)) = none ∧
      (lookupF (PutObject env fs bucket object size data metadata).2.1 bucket object
         = lookupF fs bucket object ∨
       lookupF (PutObject env fs bucket object size data metadata).2.1 bucket object
         = none)) := by
  have hbe' : env.buckets.contains bucket = true := by simpa using hbe
  have hkeyT : ((bucket, object) : String × String)
      ≠ (minioMetaBucket, pathJoin tmpMetaPfx (pathJoin bucket object)) :=
    fun heq => hbm (congrArg Prod.fst heq)
  have hfs1look : ∀ (copied : List Nat) (q : String),
      lookupF (insertF fs minioMetaBucket (pathJoin tmpMetaPfx (pathJoin bucket object))
        (stagedFile copied)) bucket q = lookupF fs bucket q :=
    fun copied q => lookupF_insertF_other fs minioMetaBucket _ bucket q _
      (fun heq => hbm (congrArg Prod.fst heq))
  refine ⟨?_, ?_, ?_, ?_, ?_⟩
  · intro e hcopy
    simp only [PutObject, hvb, hvo, hbe', isBucketExist, Bool.not_true, Bool.false_eq_true,
      if_false, if_neg hc, hcopy]
    exact ⟨trivial, lookupF_removeF_self fs minioMetaBucket _,
      lookupF_removeF_other fs minioMetaBucket _ bucket object hkeyT⟩
  · intro copied hcopy hne hmm
    have hdig : metaMD5 metadata ≠ "" ∧ md5Hex copied ≠ metaMD5 metadata := ⟨hne, hmm⟩
    simp only [PutObject, hvb, hvo, hbe', isBucketExist, Bool.not_true, Bool.false_eq_true,
      if_false, if_neg hc, hcopy, if_pos hdig]
    rw [removeF_insertF_self]
    exact ⟨trivial, lookupF_removeF_self fs minioMetaBucket _,
      lookupF_removeF_other fs minioMetaBucket _ bucket object hkeyT⟩
  · intro copied e hcopy hmd hpar
    have hdig : ¬ (metaMD5 metadata ≠ "" ∧ md5Hex copied ≠ metaMD5 metadata) := by
      rcases hmd with h | h
      · exact fun hc => hc.1 h
      · exact fun hc => hc.2 h.symm
    rcases hpp : parentDirIsObjectGo env (insertF fs minioMetaBucket
        (pathJoin tmpMetaPfx (pathJoin bucket object)) (stagedFile copied)) bucket
        (parentPaths object) with ⟨pr, cs2⟩
    rw [hpp] at hpar
    simp only at hpar
    subst hpar
    simp only [PutObject, hvb, hvo, hbe', isBucketExist, Bool.not_true, Bool.false_eq_true,
      if_false, if_neg hc, hcopy, if_neg hdig, hpp]
    exact ⟨trivial, lookupF_insertF_self _ minioMetaBucket _ _,
      hfs1look copied object⟩
  · intro copied e hcopy hmd hpar hdel hne
    have hdig : ¬ (metaMD5 metadata ≠ "" ∧ md5Hex copied ≠ metaMD5 metadata) := by
      rcases hmd with h | h
      · exact fun hc => hc.1 h
      · exact fun hc => hc.2 h.symm
    rcases hpp : parentDirIsObjectGo env (insertF fs minioMetaBucket
        (pathJoin tmpMetaPfx (pathJoin bucket object)) (stagedFile copied)) bucket
        (parentPaths object) with ⟨pr, cs2⟩
    rw [hpp] at hpar
    simp only at hpar
    subst hpar
    have htempPre := lookupF_deleteObject_other_vol env (insertF fs minioMetaBucket
      (pathJoin tmpMetaPfx (pathJoin bucket object)) (stagedFile copied)) bucket object
      minioMetaBucket (pathJoin tmpMetaPfx (pathJoin bucket object)) (fun h => hbm h.symm)
    have hdestPre := lookupF_deleteObject_sub env (insertF fs minioMetaBucket
      (pathJoin tmpMetaPfx (pathJoin bucket object)) (stagedFile copied)) bucket object
      bucket object
    rcases hdo : deleteObject env (insertF fs minioMetaBucket
        (pathJoin tmpMetaPfx (pathJoin bucket object)) (stagedFile copied)) bucket object
      with ⟨r, fs2, cs3⟩
    rw [hdo] at hdel htempPre hdestPre
    simp only at hdel htempPre hdestPre
    subst hdel
    simp only [PutObject, hvb, hvo, hbe', isBucketExist, Bool.not_true, Bool.false_eq_true,
      if_false, if_neg hc, hcopy, if_neg hdig, hpp, hdo, if_neg hne]
    refine ⟨trivial, ?_, ?_⟩
    · rw [htempPre]
      exact lookupF_insertF_self _ minioMetaBucket _ _
    · rcases hdestPre with h | h
      · left; rw [h]; exact hfs1look copied object
      · right; exact h
  · intro copied hcopy hmd hpar hdel hrn hdl
    have hdig : ¬ (metaMD5 metadata ≠ "" ∧ md5Hex copied ≠ metaMD5 metadata) := by
      rcases hmd with h | h
      · exact fun hc => hc.1 h
      · exact fun hc => hc.2 h.symm
    rcases hpp : parentDirIsObjectGo env (insertF fs minioMetaBucket
        (pathJoin tmpMetaPfx (pathJoin bucket object)) (stagedFile copied)) bucket
        (parentPaths object) with ⟨pr, cs2⟩
    rw [hpp] at hpar
    simp only at hpar
    subst hpar
    have htempPre := lookupF_deleteObject_other_vol env (insertF fs minioMetaBucket
      (pathJoin tmpMetaPfx (pathJoin bucket object)) (stagedFile copied)) bucket object
      minioMetaBucket (pathJoin tmpMetaPfx (pathJoin bucket object)) (fun h => hbm h.symm)
    have hdestPre := lookupF_deleteObject_sub env (insertF fs minioMetaBucket
      (pathJoin tmpMetaPfx (pathJoin bucket object)) (stagedFile copied)) bucket object
      bucket object
    rcases hdo : deleteObject env (insertF fs minioMetaBucket
        (pathJoin tmpMetaPfx (pathJoin bucket object)) (stagedFile copied)) bucket object
      with ⟨r, fs2, cs3⟩
    rw [hdo] at hdel htempPre hdestPre
    simp only at hdel htempPre hdestPre
    have htemp2 : lookupF fs2 minioMetaBucket (pathJoin tmpMetaPfx (pathJoin bucket object))
        = some (stagedFile copied) := by
      rw [htempPre]
      exact lookupF_insertF_self _ minioMetaBucket _ _
    have hren : renameFileCore env fs2 minioMetaBucket
        (pathJoin tmpMetaPfx (pathJoin bucket object)) bucket object
        = (some .errDiskFailure, fs2) := by
      simp [renameFileCore, hrn]
    have hdf2 : deleteFileCore env fs2 minioMetaBucket
        (pathJoin tmpMetaPfx (pathJoin bucket object))
        = (none, removeF fs2 minioMetaBucket (pathJoin tmpMetaPfx (pathJoin bucket object))) := by
      simp [deleteFileCore, hdl, htemp2]
    have hrs : putRenameStep env fs2 bucket object
        (pathJoin tmpMetaPfx (pathJoin bucket object)) (md5Hex copied)
        = (.error (toObjectErr .errDiskFailure bucket object),
           removeF fs2 minioMetaBucket (pathJoin tmpMetaPfx (pathJoin bucket object)),
           [.renameFile minioMetaBucket (pathJoin tmpMetaPfx (pathJoin bucket object))
              bucket object,
            .deleteFile minioMetaBucket (pathJoin tmpMetaPfx (pathJoin bucket object))]) := by
      simp only [putRenameStep, hren, hdf2]
    have hfinal : ∀ hres : (PutObject env fs bucket object size data metadata)
        = (.error (toObjectErr .errDiskFailure bucket object),
           removeF fs2 minioMetaBucket (pathJoin tmpMetaPfx (pathJoin bucket object)),
           (PutObject env fs bucket object size data metadata).2.2),
        (PutObject env fs bucket object size data metadata).1
          = .error (toObjectErr .errDiskFailure bucket object) ∧
        lookupF (PutObject env fs bucket object size data metadata).2.1 minioMetaBucket
          (pathJoin tmpMetaPfx (pathJoin bucket object)) = none ∧
        (lookupF (PutObject env fs bucket object size data metadata).2.1 bucket object
           = lookupF fs bucket object ∨
         lookupF (PutObject env fs bucket object size data metadata).2.1 bucket object
           = none) := by
      intro hres
      rw [hres]
      refine ⟨rfl, lookupF_removeF_self fs2 minioMetaBucket _, ?_⟩
      rw [lookupF_removeF_other fs2 minioMetaBucket _ bucket object hkeyT]
      rcases hdestPre with h | h
      · left; rw [h]; exact hfs1look copied object
      · right; exact h
    rcases hdel with hdel | hdel
    · subst hdel
      apply hfinal
      simp only [PutObject, hvb, hvo, hbe', isBucketExist, Bool.not_true, Bool.false_eq_true,
        if_false, if_neg hc, hcopy, if_neg hdig, hpp, hdo, hrs]
    · subst hdel
      apply hfinal
      simp only [PutObject, hvb, hvo, hbe', isBucketExist, Bool.not_true, Bool.false_eq_true,
        if_false, if_neg hc, hcopy, if_neg hdig, hpp, hdo, hrs]
      simp

/-- Witness for C1: the amended theorem applied at the counterexample's
input — the parent-directory-is-object failure leaves the staged file in
place and the destination untouched. -/
theorem c1_putObject_failure_cleanup_witness :
    (PutObject envC1 fsC1 "b" "a/b" 3 ⟨[1, 2, 3], none⟩ []).1
      = .error (toObjectErr .errFileAccessDenied "b" "a/b") ∧
    lookupF (PutObject envC1 fsC1 "b" "a/b" 3 ⟨[1, 2, 3], none⟩ []).2.1
      minioMetaBucket (pathJoin tmpMetaPfx (pathJoin "b" "a/b"))
      = some (stagedFile [1, 2, 3]) ∧
    lookupF (PutObject envC1 fsC1 "b" "a/b" 3 ⟨[1, 2, 3], none⟩ []).2.1 "b" "a/b"
      = lookupF fsC1 "b" "a/b" :=
  (c1_putObject_failure_cleanup envC1 fsC1 "b" "a/b" 3 ⟨[1, 2, 3], none⟩ []
    (by decide) (by decide) (by decide) (by decide) (by decide)).2.2.1
    [1, 2, 3] .errFileAccessDenied (by decide) (Or.inl (by decide)) (by decide)

/-! ## C8: object info resolution -/

/-- C8: `getObjectInfo` first stats the object as a simple file; exactly
when that stat fails with file-not-found it falls back to the multipart
descriptor, taking size, modification time and content hash from it (a
non-not-found stat error propagates with no descriptor read); when neither
exists the not-found error propagates; and in all successful cases the
content type is resolved from the lowercased object-name extension via the
MIME table, defaulting to application/octet-stream when the extension is
absent or unknown. -/
theorem c8_getObjectInfo_resolution (env : Env) (fs : FilesMap) (bucket object : String) :
    ((getObjectInfo env fs bucket object).2.head? = some (.statFile bucket object)) ∧
    (∀ fd, (bucket, object) ∉ env.failStat → lookupF fs bucket object = some fd →
      (getObjectInfo env fs bucket object).1
        = .ok { bucket := bucket, name := object, modTime := fd.modTime,
                size := contentLen fd.content, isDir := fd.isDir,
                contentType := contentTypeOf env.mimeDB object, md5Sum := fd.md5 }) ∧
    ((bucket, object) ∈ env.failStat →
      (getObjectInfo env fs bucket object).1 = .error .errDiskFailure ∧
      (getObjectInfo env fs bucket object).2 = [.statFile bucket object]) ∧
    (∀ info, (bucket, object) ∉ env.failStat → lookupF fs bucket object = none →
      (lookupF fs bucket (pathJoin object multipartMetaFile)).map FileData.content
        = some (.mpInfo info) →
      (getObjectInfo env fs bucket object).1
        = .ok { bucket := bucket, name := object, modTime := info.modTime, size := info.size,
                isDir := false, contentType := contentTypeOf env.mimeDB object,
                md5Sum := info.md5Sum }) ∧
    ((bucket, object) ∉ env.failStat → lookupF fs bucket object = none →
      lookupF fs bucket (pathJoin object multipartMetaFile) = none →
      (getObjectInfo env fs bucket object).1 = .error .errFileNotFound) ∧
    (filepathExt object = "" → contentTypeOf env.mimeDB object = "application/octet-stream") ∧
    (∀ ext, filepathExt object = ext → ext ≠ "" →
      env.mimeDB (toLowerStr (trimDot ext)) = none →
      contentTypeOf env.mimeDB object = "application/octet-stream") ∧
    (∀ ext ct, filepathExt object = ext → ext ≠ "" →
      env.mimeDB (toLowerStr (trimDot ext)) = some ct →
      contentTypeOf env.mimeDB object = ct) := by
  refine ⟨?_, ?_, ?_, ?_, ?_, ?_, ?_, ?_⟩
  · unfold getObjectInfo
    split
    · rfl
    · split
      · rfl
      · split
        · rfl
        · rfl
  · intro fd hns hlf
    have hstat : statFileCore env fs bucket object
        = .ok { size := contentLen fd.content, modTime := fd.modTime, md5Sum := fd.md5,
                isDir := fd.isDir } := by
      simp [statFileCore, hns, hlf]
    simp [getObjectInfo, hstat, mkObjectInfo]
  · intro hf
    have hstat : statFileCore env fs bucket object = .error .errDiskFailure := by
      simp [statFileCore, hf]
    have hne : StorageErr.errDiskFailure ≠ StorageErr.errFileNotFound := by decide
    constructor <;> simp [getObjectInfo, hstat, hne]
  · intro info hns hlf hdesc
    obtain ⟨fd, hlf2, hfc⟩ : ∃ fd,
        lookupF fs bucket (pathJoin object multipartMetaFile) = some fd ∧
        fd.content = .mpInfo info := by
      match hl : lookupF fs bucket (pathJoin object multipartMetaFile) with
      | some fd => rw [hl] at hdesc; simp at hdesc; exact ⟨fd, rfl, hdesc⟩
      | none => rw [hl] at hdesc; simp at hdesc
    have hstat : statFileCore env fs bucket object = .error .errFileNotFound := by
      simp [statFileCore, hns, hlf]
    have hgm : getMultipartObjectInfoCore fs bucket object = .ok info := by
      simp [getMultipartObjectInfoCore, hlf2, hfc]
    simp [getObjectInfo, hstat, hgm, mkObjectInfo]
  · intro hns hlf hdn
    have hstat : statFileCore env fs bucket object = .error .errFileNotFound := by
      simp [statFileCore, hns, hlf]
    have hgm : getMultipartObjectInfoCore fs bucket object = .error .errFileNotFound := by
      simp [getMultipartObjectInfoCore, hdn]
    simp [getObjectInfo, hstat, hgm]
  · intro hext
    simp [contentTypeOf, hext]
  · intro ext hext hne hdb
    subst hext
    simp [contentTypeOf, hne, hdb]
  · intro ext ct hext hne hdb
    subst hext
    simp [contentTypeOf, hne, hdb]

/-- Test environment for C8: the MIME table maps "txt" to text/plain. -/
def envC8 : Env :=
  { buckets := ["b"], failStat := [], failCreate := [], failDelete := [], failRename := [],
    isValidBucketName := (fun _ => true), isValidObjectName := (fun _ => true),
    mimeDB := (fun s => if s = "txt" then some "text/plain" else none) }

/-- Files for C8: the object exists only as a multipart descriptor. -/
def fsC8 : FilesMap :=
  [(("b", pathJoin "f.TXT" multipartMetaFile),
    ⟨.mpInfo { parts := [⟨1, "e", 4⟩], size := 4, modTime := 9, md5Sum := "m" }, 9, "", false⟩)]

/-- Witness for C8: the info of a multipart-only object is synthesized from
its descriptor, and the ".TXT" extension resolves via the MIME table after
lowercasing. -/
theorem c8_getObjectInfo_resolution_witness :
    (getObjectInfo envC8 fsC8 "b" "f.TXT").1
      = .ok { bucket := "b", name := "f.TXT", modTime := 9, size := 4, isDir := false,
              contentType := contentTypeOf envC8.mimeDB "f.TXT", md5Sum := "m" } ∧
    contentTypeOf envC8.mimeDB "f.TXT" = "text/plain" := by
  have h := c8_getObjectInfo_resolution envC8 fsC8 "b" "f.TXT"
  exact ⟨h.2.2.2.1 { parts := [⟨1, "e", 4⟩], size := 4, modTime := 9, md5Sum := "m" }
      (by decide) (by decide) (by decide),
    h.2.2.2.2.2.2.2 ".TXT" "text/plain" (by decide) (by decide) (by decide)⟩
